import Mathlib

/-!
Verification model of the VScript debug-adapter protocol/session engine.

The TypeScript sources are embedded shallowly: classes become structures,
in-place mutation becomes explicit state passing, socket writes and DAP
events become append-only history lists on the session state, and the two
external libraries (`xml2js`, `html-entities`) together with the few helper
modules that are not part of the provided sources are modelled from the
specification where noted.

JavaScript semantics that matter here and are modelled explicitly:
* `Map` keyed by freshly allocated arrays (`[basename, line]`) compares keys
  by object reference (SameValueZero), so `get`/`delete` with a tuple
  literal never find an entry stored under a different tuple literal.
* string concatenation with `undefined` yields the text "undefined".
* a `for..of` loop over an array that is spliced during iteration skips the
  element that slides into the removed slot.
-/

namespace VScript

/-- Session lifecycle states, from `DebuggerState` in customInterfaces.ts
(the source spells the first one `runnning`). -/
inductive DebuggerState where
  | runnning
  | stopped
  | errored
  | preResume
  | ready
  | disconnected
deriving DecidableEq, Repr

/-- Script engine variants, from `VScriptVersion` in customInterfaces.ts. -/
inductive VScriptVersion where
  | squirrel2
  | squirrel3
deriving DecidableEq, Repr

/-- Numeric value of the `VScriptVersion` enum member (squirrel2 = 0,
squirrel3 = 1), used for the `<` comparisons in the source. -/
def VScriptVersion.toNat : VScriptVersion → Nat
  | .squirrel2 => 0
  | .squirrel3 => 1

/-- Watch result status, from `WatchStatus` in customInterfaces.ts. -/
inductive WatchStatus where
  | ok
  | error
deriving DecidableEq, Repr

/-- A JavaScript basic value as stored in watch/variable values
(`IBasicType`): a string, a boolean, or a number.  Numbers are kept as the
raw digit string handed to JavaScript `Number(...)`; no claim inspects the
numeric value itself, so the float semantics stay uninterpreted. -/
inductive IBasicType where
  | str (s : String)
  | jsNum (raw : String)
  | jsBool (b : Bool)
deriving DecidableEq, Repr

/-- Lowercase hexadecimal rendering of a natural number, the model of
JavaScript `n.toString(16)` for the non-negative integers used by the
protocol. -/
def hexStr (n : Nat) : String :=
  String.mk (Nat.toDigits 16 n)

/-- Decimal digit value of a character. -/
def digitValRaw : Char → Nat
  | '0' => 0
  | '1' => 1
  | '2' => 2
  | '3' => 3
  | '4' => 4
  | '5' => 5
  | '6' => 6
  | '7' => 7
  | '8' => 8
  | '9' => 9
  | _ => 10

def digitVal (c : Char) : Option Nat :=
  if digitValRaw c < 10 then some (digitValRaw c) else none

/-- Accumulate the decimal value of a digit list; `none` on a non-digit. -/
def jsToNatAux : List Char → Nat → Option Nat
  | [], acc => some acc
  | c :: rest, acc =>
    match digitVal c with
    | some d => jsToNatAux rest (acc * 10 + d)
    | none => none

/-- JavaScript `Number(s)` truncated to the naturals: used where the
source converts a decimal reference-id or line attribute (the relevant
wire values are decimal digit strings; anything else maps to 0, which no
modelled path distinguishes from NaN). -/
def jsToNat (s : String) : Nat :=
  (jsToNatAux s.data 0).getD 0

/-- JavaScript `endsWith`, computed on the character list. -/
def jsEndsWith (s suffix : String) : Bool :=
  suffix.data.isSuffixOf s.data

/-- Split a character list on the CRLF terminator, non-overlapping, left
to right: JavaScript `split("\r\n")`. -/
def splitCRLFChars : List Char → List (List Char)
  | [] => [[]]
  | '\r' :: '\n' :: rest => [] :: splitCRLFChars rest
  | c :: rest =>
    match splitCRLFChars rest with
    | x :: xs => (c :: x) :: xs
    | [] => [[c]]

/-- JavaScript `split("\r\n")` on the model's strings. -/
def jsSplitCRLF (s : String) : List String :=
  (splitCRLFChars s.data).map String.mk

/-- JavaScript `replace(/\\/g, "/")`: forward-slash every backslash. -/
def replaceBackslashes (s : String) : String :=
  String.mk (s.data.map fun c => if c = '\\' then '/' else c)

/-- Split a character list on `/` (for Node's `path.basename`). -/
def splitSlashChars : List Char → List (List Char)
  | [] => [[]]
  | c :: rest =>
    if c = '/' then [] :: splitSlashChars rest
    else
      match splitSlashChars rest with
      | x :: xs => (c :: x) :: xs
      | [] => [[c]]

/-- Wire command for adding a watch: `aw <hex id>:<expression>` (watches.ts). -/
def awCmd (id : Nat) (expression : String) : String :=
  "aw 0x" ++ hexStr id ++ ":" ++ expression ++ "\n"

/-- Wire command for removing a watch: `rw <hex id>` (watches.ts sends it
without a trailing newline). -/
def rwCmd (id : Nat) : String :=
  "rw 0x" ++ hexStr id

/-- Wire command for adding a breakpoint: `ab <hex line>:<path>`
(`sendAddBreakpoint`). -/
def abCmd (src : String) (line : Nat) : String :=
  "ab 0x" ++ hexStr line ++ ":" ++ replaceBackslashes src ++ "\n"

/-- Wire command for removing a breakpoint: `rb <hex line>:<path>`
(`sendRemoveBreakpoint`). -/
def rbCmd (src : String) (line : Nat) : String :=
  "rb 0x" ++ hexStr line ++ ":" ++ replaceBackslashes src ++ "\n"

/-- Whether `pat` occurs in `cs` starting at some index `i ≥ lo` (with the
occurrence lying entirely inside `cs`).  Model of JavaScript
`String.prototype.includes(pat, lo)` on an explicit character list. -/
def jsIncludesFrom (cs : List Char) (pat : List Char) (lo : Nat) : Bool :=
  (List.range (cs.length + 1)).any fun i =>
    decide (lo ≤ i) && pat.isPrefixOf (cs.drop i)

/-- The decoder's fast exception pre-check
(`receivedData.slice(0, 120).includes("error=", 25)` in parseReceivedData):
look for the marker `error=` in the first 120 characters, starting the
search at character 25. -/
def errorPrecheck (receivedData : String) : Bool :=
  jsIncludesFrom (receivedData.data.take 120) "error=".data 25

/-- Short type tags denoting aggregate (reference-carrying) values, from
`isComplexDataType` in parsing.ts. -/
def isComplexDataType (shorttype : String) : Bool :=
  match shorttype with
  | "t" | "r" | "a" | "x" | "y" => true
  | _ => false

/-- One `<e .../>` element of a server object-graph entry, as produced by
xml2js: value type tag `vt`, value `v` (a scalar or a decimal reference
id), key value `kv` and key type tag `kt`. -/
structure XmlElem where
  vt : String
  v : String
  kv : String
  kt : String
deriving DecidableEq, Repr

/-- One `<o ref=... >` object-graph entry, as produced by xml2js: the
server reference id, the optional `typeof` attribute, and the element
list (`obj['e']`; absent in the XML is modelled as the empty list, which
xml2js never produces for a present-but-empty child set). -/
structure RefObj where
  ref : Nat
  typeofAttr : Option String
  elements : List XmlElem
deriving DecidableEq, Repr

/-- `isVariableEHandle` (parsing.ts): a reference denotes an entity handle
iff its entry has a native-function element literally named `entindex`. -/
def isVariableEHandle (referenceList : List RefObj) (reference : Nat) : Bool :=
  go referenceList
where
  /-- The `for..of` loop over the reference list: the first entry with the
  matching ref decides the answer (the loop returns from inside). -/
  go : List RefObj → Bool
  | [] => false
  | obj :: rest =>
    if obj.ref ≠ reference then go rest
    else if obj.elements.isEmpty then false
    else obj.elements.any fun e => e.vt = "native function" && e.kv = "entindex"

/-- The key prefix computed for a table element in
`getStructShortRepresentation` (the `switch(keytype)` block); for
non-table aggregates the prefix is the element's raw value, and for
arrays it is cleared to the empty string. -/
def renderKeyPrefix (referenceList : List RefObj) (type_ : String) (e : XmlElem) : String :=
  if type_ = "a" then ""
  else if type_ = "t" then
    match e.kt with
    | "s" => e.kv ++ " = "
    | "a" => "Array [...] = "
    | "t" => "Table {...} = "
    | "r" => "[REFERENCE] = "
    | "x" =>
      if isVariableEHandle referenceList (jsToNat e.kv) then "[Entity handle] = "
      else "[Object] = "
    | "y" => "[Class] = "
    | "fn" => "[Function] = "
    | "h" => "[Thread] = "
    | "g" => "[Function generator] = "
    | "u" => "[Userdata] = "
    | _ => e.kv ++ " = "
  else e.v

/-- The text appended for an element's value in
`getStructShortRepresentation` (the `switch(elementtype)` block).  For the
object case the source checks the `typeof` attribute under `obj['$']` but
then appends `obj['typeof']`, which xml2js leaves undefined, so JavaScript
string concatenation renders the text `undefined`; every matching entry
appends (the inner loop has no break). -/
def renderValuePart (referenceList : List RefObj) (e : XmlElem) : String :=
  match e.vt with
  | "s" => "\"" ++ e.v ++ "\""
  | "a" => "Array [...]"
  | "t" => "Table {...}"
  | "r" => "REFERENCE"
  | "x" =>
    if isVariableEHandle referenceList (jsToNat e.v) then "Entity handle"
    else
      referenceList.foldl
        (fun acc obj =>
          if obj.ref = jsToNat e.v then
            acc ++ (if obj.typeofAttr.isSome then "undefined" else "Object")
          else acc) ""
  | "y" => "Class"
  | "fn" => "Function"
  | "h" => "Thread"
  | "g" => "Function generator"
  | "u" => "Userdata"
  | _ => e.v

/-- Full rendering of one preview element: the initial `value` (key prefix
for tables, empty for arrays, the raw value otherwise) with the
type-switched value text appended to it. -/
def renderElement (referenceList : List RefObj) (type_ : String) (e : XmlElem) : String :=
  renderKeyPrefix referenceList type_ e ++ renderValuePart referenceList e

/-- Accumulator of the preview loops: the rendered contents, the
first-element flag, the number of rendered elements, and the last seen
element count. -/
structure PreviewAcc where
  contents : String
  isFirstElement : Bool
  parsedElementCount : Nat
  length : Nat
deriving DecidableEq, Repr

/-- The inner element loop of `getStructShortRepresentation`: render
elements until the configured maximum is reached, then append the ellipsis
marker and stop. -/
def previewElemsLoop (referenceList : List RefObj) (maxShortData : Nat)
    (type_ : String) : List XmlElem → PreviewAcc → PreviewAcc
  | [], acc => acc
  | e :: rest, acc =>
    if acc.parsedElementCount ≥ maxShortData then
      { acc with contents := acc.contents ++ ", ..." }
    else
      let value := renderElement referenceList type_ e
      let contents :=
        if acc.isFirstElement then acc.contents ++ value
        else acc.contents ++ ", " ++ value
      previewElemsLoop referenceList maxShortData type_ rest
        { acc with
          contents := contents
          isFirstElement := false
          parsedElementCount := acc.parsedElementCount + 1 }

/-- The outer loop of `getStructShortRepresentation` over the parsed
reference list: each entry matching the requested reference contributes
its elements (there is no break after a match). -/
def previewObjsLoop (referenceList : List RefObj) (maxShortData : Nat)
    (serverRef : Nat) (type_ : String) : List RefObj → PreviewAcc → PreviewAcc
  | [], acc => acc
  | obj :: rest, acc =>
    if obj.ref ≠ serverRef then previewObjsLoop referenceList maxShortData serverRef type_ rest acc
    else if obj.elements.isEmpty then
      previewObjsLoop referenceList maxShortData serverRef type_ rest acc
    else
      let acc := { acc with length := obj.elements.length }
      let acc := previewElemsLoop referenceList maxShortData type_ obj.elements acc
      previewObjsLoop referenceList maxShortData serverRef type_ rest acc

/-- `getStructShortRepresentation` (parsing.ts): one-line bounded preview
of an aggregate.  The `x` case can throw in the source (a `Vector` entry
with fewer than three elements), hence the `Except` result; `.error ()`
models the JavaScript exception. -/
def getStructShortRepresentation (referenceList : List RefObj) (maxShortData : Nat)
    (serverRef : Nat) (type_ : String) : Except Unit String :=
  let acc := previewObjsLoop referenceList maxShortData serverRef type_ referenceList
    { contents := "", isFirstElement := true, parsedElementCount := 0, length := 0 }
  match type_ with
  | "a" => .ok ("Array " ++ "(" ++ toString acc.length ++ ") " ++ "[" ++ acc.contents ++ "]")
  | "t" => .ok ("Table " ++ "(" ++ toString acc.length ++ ") " ++ "\x7b" ++ acc.contents ++ "\x7d")
  | "r" => .ok "REFERENCE"
  | "x" =>
    if isVariableEHandle referenceList serverRef then .ok "Entity handle"
    else xCase referenceList serverRef referenceList
  | "y" => .ok "Class"
  | "fn" => .ok "Function"
  | "h" => .ok "Thread"
  | "g" => .ok "Function generator"
  | "u" => .ok "Userdata"
  | _ => .ok ("Structure (" ++ type_ ++ ") \x7b" ++ acc.contents ++ "\x7d")
where
  /-- The final `x` loop: the first matching entry with a `typeof`
  attribute supplies the display name; a `Vector` additionally renders its
  first three element values and throws when they are missing. -/
  xCase (referenceList : List RefObj) (serverRef : Nat) : List RefObj → Except Unit String
  | [] => .ok "Object"
  | obj :: rest =>
    if obj.ref ≠ serverRef then xCase referenceList serverRef rest
    else match obj.typeofAttr with
      | none => xCase referenceList serverRef rest
      | some tname =>
        if tname = "Vector" then
          match obj.elements with
          | e0 :: e1 :: e2 :: _ =>
            .ok ("Vector [" ++ e0.v ++ ", " ++ e1.v ++ ", " ++ e2.v ++ "]")
          | _ => .error ()
        else .ok tname

/-- Label of a reference-tree node (`ReferenceVariable` in
customInterfaces.ts): the server reference id, the first name the
reference was seen under, and its declared type. -/
structure ReferenceVariable where
  reference : Nat
  firstName : String
  variableType : String
deriving DecidableEq, Repr

/-- A node of the per-step reference tree (`TreeNode<ReferenceVariable>`).
The source also stores a parent pointer, which makes the runtime value
cyclic and carries no information not already present in the tree shape,
so it is omitted here. -/
inductive RefTree where
  | node (element : ReferenceVariable) (children : List RefTree) (depth : Nat)
deriving Repr

/-- Result of a `buildReferenceTree` run: the visited list as mutated so
far (the source pushes into the shared `searchedElementsList` array), and
either the optional produced node or `.error ()` for a thrown JavaScript
`TypeError` (the source reads `obj['e']` off the result of a failed
`find`). -/
structure BRes where
  visited : List Nat
  out : Except Unit (Option RefTree)

/-- The `for..of` loop over an entry's elements, abstracted over the
recursive call `go` into `buildReferenceTree` for the child references:
recurse into every complex-typed element, collecting produced child
nodes, threading the shared visited list, and incrementing the local
`depth` (the source's post-increment `depth++`) once per complex element.
The boolean marks a propagating exception, which aborts the loop. -/
def buildRefTreeElemsF (go : Nat → String → String → Nat → List Nat → Option BRes) :
    List XmlElem → Nat → List Nat → Option (List RefTree × List Nat × Bool)
  | [], _, visited => some ([], visited, false)
  | e :: rest, depth, visited =>
    if isComplexDataType e.vt then
      match go (jsToNat e.v) e.kv e.vt depth visited with
      | none => none
      | some ⟨visited', .error _⟩ => some ([], visited', true)
      | some ⟨visited', .ok childOpt⟩ =>
        match buildRefTreeElemsF go rest (depth + 1) visited' with
        | none => none
        | some (children, visitedF, threw) =>
          some (childOpt.toList ++ children, visitedF, threw)
    else
      buildRefTreeElemsF go rest depth visited

/-- `buildReferenceTree` (parsing.ts), with an explicit fuel bounding the
recursion depth; `none` means the fuel ran out, which never happens for
sufficient fuel because every recursive step pushes a previously
unvisited reference of the reference list into the visited list. -/
def buildRefTreeGo : Nat → List RefObj → Nat → String → String → Nat → List Nat →
    Option BRes
  | 0, _, _, _, _, _, _ => none
  | fuel + 1, refs, serverRef, name, ty, depth, visited =>
    match refs.find? (fun o => o.ref = serverRef) with
    | none => some ⟨visited, .error ()⟩
    | some obj =>
      if obj.elements.isEmpty then some ⟨visited, .ok none⟩
      else if serverRef ∈ visited then some ⟨visited, .ok none⟩
      else
        match buildRefTreeElemsF (buildRefTreeGo fuel refs) obj.elements depth
            (visited ++ [serverRef]) with
        | none => none
        | some (_, visitedF, true) => some ⟨visitedF, .error ()⟩
        | some (children, visitedF, false) =>
          some ⟨visitedF, .ok (some (.node ⟨serverRef, name, ty⟩ children depth))⟩

/-- The element loop with the fuel-indexed recursive call plugged in. -/
def buildRefTreeElems (fuel : Nat) (refs : List RefObj) (es : List XmlElem)
    (depth : Nat) (visited : List Nat) : Option (List RefTree × List Nat × Bool) :=
  buildRefTreeElemsF (buildRefTreeGo fuel refs) es depth visited

/-- Number of references occurring in the reference list that are not yet
in the visited list: an upper bound on the further recursion depth of
`buildReferenceTree`. -/
def unvisitedCount (refs : List RefObj) (visited : List Nat) : Nat :=
  (((refs.map RefObj.ref).dedup).filter (fun r => r ∉ visited)).length

/-- `buildReferenceTree` with the fuel instantiated high enough that it
never runs out; the default is
therefore unreachable. -/
def buildReferenceTree (refs : List RefObj) (serverRef : Nat) (name ty : String)
    (depth : Nat) (visited : List Nat) : BRes :=
  (buildRefTreeGo (unvisitedCount refs visited + 1) refs serverRef name ty depth
    visited).getD ⟨visited, .error ()⟩

mutual

/-- Number of nodes of a reference tree labelled with the given server
reference id. -/
def countNodesWithRef (r : Nat) : RefTree → Nat
  | .node el children _ => (if el.reference = r then 1 else 0) + countNodesListWithRef r children

/-- `countNodesWithRef` summed over a forest. -/
def countNodesListWithRef (r : Nat) : List RefTree → Nat
  | [] => 0
  | t :: ts => countNodesWithRef r t + countNodesListWithRef r ts

end

/-- `variableToValue` (parsing.ts): convert a raw wire value and its
one-letter type tag into the stored basic value; aggregates go through the
short-representation renderer. -/
def variableToValue (referenceList : List RefObj) (maxShortData : Nat)
    (value : String) (char : String) : Except Unit IBasicType :=
  match char with
  | "i" | "f" => .ok (.jsNum value)
  | "b" => .ok (.jsBool (value = "true"))
  | "s" => .ok (.str value)
  | "a" | "t" | "r" | "x" | "y" =>
    (getStructShortRepresentation referenceList maxShortData (jsToNat value) char).map .str
  | "fn" => .ok (.str "function")
  | "g" => .ok (.str "generator")
  | "h" => .ok (.str "thread")
  | "u" => .ok (.str "userdata")
  | _ => .ok (.str value)

/-- A tracked breakpoint (`IRuntimeBreakpoint`): id, line, verified flag. -/
structure IBreakpoint where
  id : Nat
  line : Nat
  verified : Bool
deriving DecidableEq, Repr

/-- A tracked watch (`DebuggerWatch` in customInterfaces.ts).  The sparse
JavaScript arrays `values[frameId]` and `status[frameId]` are modelled as
association lists from frame index to entry. -/
structure DebuggerWatch where
  id : Nat
  expression : String
  values : List (Nat × IBasicType) := []
  status : List (Nat × WatchStatus) := []
  type : String := ""
  variableReference : Nat := 0
  holderReference : Nat := 0
  displayName : String := ""
  hidden : Bool := false
  frameId : Nat := 0
  isValid : Bool := false
deriving DecidableEq, Repr

/-- The `DebuggerWatch` constructor: only id and expression are set. -/
def mkWatch (id : Nat) (expression : String) : DebuggerWatch :=
  { id := id, expression := expression }

/-- A parsed variable (`DebuggerVariable` in customInterfaces.ts). -/
structure DebuggerVariable where
  name : String
  value : IBasicType
  type : String
  variableReference : Nat := 0
  ownerReference : Nat := 0
  isIndexed : Bool := false
  nameType : String := "s"
  variablePath : String := ""
  frameId : Nat := 0
  hidden : Bool := false
deriving DecidableEq, Repr

/-- A stack frame as built by `parseCall` (the DAP `StackFrame` plus the
source fields the engine sets): ordinal id, function name, line, source
name and path, and the deemphasize presentation hint used for non-file
sources. -/
structure ModelStackFrame where
  id : Nat
  name : String
  line : Int
  srcName : String
  srcPath : Option String
  deemphasized : Bool := false
deriving DecidableEq, Repr

/-- Cached file resolution (`FileReferenceData`): resolved absolute path
and the number of candidate files of that basename. -/
structure FileRefData where
  fullpath : String
  count : Nat
deriving DecidableEq, Repr

/-- DAP events and UI notifications emitted by the engine, recorded as
history. -/
inductive DapEvent where
  | continuedEv
  | stoppedEv (reason : String) (text : Option String)
  | outputEv (msg : String) (category : String)
  | invalidatedEv
  | breakpointChangedEv (id : Nat) (line : Nat) (verified : Bool)
  | warningMessageEv (msg : String)
  | errorMessageEv (msg : String)
  | infoMessageEv (msg : String)
deriving DecidableEq, Repr

/-- One answer of the external user to a modal prompt raised during
decoding (fileReferences module, src/src/entityData.ts): `pick i` selects
the `i`-th quick-pick item of `presentFileQuickPick` (candidate files
first, then the separator, the step-out, resume and ignore control
items), and the named choices answer the buttons of
`presentFileMissingMessage`.  The session carries the pending answers as
an oracle list consumed in prompt order; an empty list is a dismissed
prompt. -/
inductive UserChoice where
  | pick (i : Nat)
  | resumeChoice
  | stepOutChoice
  | ignoreChoice
deriving DecidableEq, Repr

/-- The per-session mutable state of `VScriptDebugSession`, restricted to
the fields the verified operations read or write, plus two append-only
history fields (`sent` for socket writes, `events` for DAP events and UI
messages). -/
structure Session where
  debuggerState : DebuggerState := .disconnected
  scriptVersion : VScriptVersion := .squirrel2
  resumeOnExceptions : Bool := false
  hideNativeFunctions : Bool := true
  hideClasses : Bool := false
  maxShortData : Nat := 4
  rememberFileReferencesDuringSession : Bool := false
  displayRootTable : Bool := false
  stacktraces : List ModelStackFrame := []
  watches : List DebuggerWatch := []
  entityDataWatches : List (Nat × List DebuggerWatch) := []
  watchesThisStep : List Nat := []
  watchID : Nat := 1
  entityDataWatchID : Nat := 1000000
  localVariables : List (Nat × List DebuggerVariable) := []
  rootVariables : List DebuggerVariable := []
  referenceTreeRootElement : ReferenceVariable := ⟨0, "@root@", "r"⟩
  referenceTreeChildren : List RefTree := []
  visitedTreeElements : List Nat := []
  currentParsedReferences : List RefObj := []
  rootTableReference : Int := -1
  usedVariableReferences : List Nat := [0]
  virtualReference : Nat := 10000
  startingFrameID : Int := -1
  currentFrameID : Int := -1
  stackFrameID : Nat := 0
  bufferedData : String := ""
  resumeTimerActive : Bool := false
  resolvedFileReferences : List (String × FileRefData) := []
  breakpoints : List (String × List IBreakpoint) := []
  breakpointsRefCount : List ((String × Nat) × Int) := []
  notifiedFileBreakpoints : List String := []
  breakpointID : Nat := 0
  exceptionDescription : String := ""
  exceptionStackTrace : String := ""
  fileResolutions : List (String × List String) := []
  currentWorkPath : String := ""
  userChoices : List UserChoice := []
  sent : List String := []
  events : List DapEvent := []

/-- JavaScript `Map.set` on an association list: replace the value under
an existing key in place, otherwise append (Map iteration order is
insertion order). -/
def mapSet {α β : Type} [DecidableEq α] : List (α × β) → α → β → List (α × β)
  | [], k, v => [(k, v)]
  | (k', v') :: rest, k, v =>
    if k' = k then (k', v) :: rest else (k', v') :: mapSet rest k v

/-- `arrayMapToArray` (utilities module, staged in
src/src/entityData.ts:450): concatenate the value arrays of a `Map` of
arrays into one array, in insertion order. -/
def arrayMapToArray {α β : Type} (m : List (α × List β)) : List β :=
  (m.map Prod.snd).flatten

/-- Append a watch to the entity-data bucket of the given owner reference,
creating the bucket first when missing (`addWatch`, entity branch). -/
def pushToEntityMap (m : List (Nat × List DebuggerWatch)) (k : Nat)
    (w : DebuggerWatch) : List (Nat × List DebuggerWatch) :=
  match m.lookup k with
  | some arr => mapSet m k (arr ++ [w])
  | none => m ++ [(k, [w])]

/-- `addWatch` (watches.ts).  Returns the updated session and the watch
the call returns (a fresh watch, or the existing one on the
deduplication path, which sends nothing and registers nothing). -/
def addWatch (s : Session) (id : Nat) (expression : String)
    (displayName : String := "") (variableReference : Nat := 0)
    (_frameID : Nat := 0) (affectTables : Bool := true) : Session × DebuggerWatch :=
  let watch := mkWatch id expression
  if !affectTables then
    ({ s with sent := s.sent ++ [awCmd id expression] }, watch)
  else if id &&& 0x100000 = 0 then
    match s.watches.find? (fun e => e.expression = expression) with
    | none =>
      ({ s with
          sent := s.sent ++ [awCmd id expression]
          watches := s.watches ++ [watch]
          watchID := s.watchID + 1 }, watch)
    | some existingWatch => (s, existingWatch)
  else
    let watch := { watch with displayName := displayName }
    ({ s with
        sent := s.sent ++ [awCmd id expression]
        entityDataWatches := pushToEntityMap s.entityDataWatches variableReference watch
        watchID := s.watchID + 1 }, watch)

/-- Remove the first watch with the given id from a list (`find` followed
by `indexOf`/`splice` in the source). -/
def removeFirstWatchById : List DebuggerWatch → Nat → List DebuggerWatch
  | [], _ => []
  | w :: ws, id => if w.id = id then ws else w :: removeFirstWatchById ws id

/-- Find the first entity-data bucket containing a watch with the given id
and remove that watch from it; `none` when no bucket holds the id
(`removeWatch`, entity branch). -/
def removeEntityWatch : List (Nat × List DebuggerWatch) → Nat →
    Option (List (Nat × List DebuggerWatch))
  | [], _ => none
  | (k, arr) :: rest, id =>
    if arr.any (fun w => w.id = id) then
      some ((k, removeFirstWatchById arr id) :: rest)
    else
      (removeEntityWatch rest id).map (fun m => (k, arr) :: m)

/-- `removeWatch` (watches.ts). -/
def removeWatch (s : Session) (id : Nat) (affectTables : Bool := false) : Session :=
  if !affectTables then
    { s with sent := s.sent ++ [rwCmd id] }
  else if id &&& 0x100000 = 0 then
    match s.watches.find? (fun e => e.id = id) with
    | some _ =>
      { s with
          watches := removeFirstWatchById s.watches id
          sent := s.sent ++ [rwCmd id] }
    | none => s
  else
    match removeEntityWatch s.entityDataWatches id with
    | some m => { s with entityDataWatches := m, sent := s.sent ++ [rwCmd id] }
    | none => s

/-- The indexed iteration of `cleanupUnusedWatches`: a JavaScript `for..of`
over `this.watches` while `removeWatch` splices out of the same array, so
the iterator index advances past the element that slid into the removed
slot.  The fuel is an upper bound on the number of iterations (the index
grows by one per iteration and is bounded by the shrinking length). -/
def cleanupLoop : Nat → Session → Nat → Session
  | 0, s, _ => s
  | fuel + 1, s, i =>
    if h : i < s.watches.length then
      let watch := s.watches.get ⟨i, h⟩
      if watch.id = 0 then cleanupLoop fuel s (i + 1)
      else if s.watchesThisStep.contains watch.id then cleanupLoop fuel s (i + 1)
      else cleanupLoop fuel (removeWatch s watch.id true) (i + 1)
    else s

/-- `cleanupUnusedWatches` (vscriptDebug.ts): remove every watch (except
the reserved id 0) whose id was not validated this step, then clear the
per-step validation list. -/
def cleanupUnusedWatches (s : Session) : Session :=
  let s' := cleanupLoop (s.watches.length + 1) s 0
  { s' with watchesThisStep := [] }

/-- `resetFileReferences` (vscriptDebug.ts). -/
def resetFileReferences (s : Session) : Session :=
  { s with resolvedFileReferences := [] }

/-- `resetState` (vscriptDebug.ts).  The variable-handle pool and the
editor-change warning disposable are host-UI objects and are not part of
the model. -/
def resetState (s : Session) : Session :=
  let s := { s with
    bufferedData := ""
    currentFrameID := 0
    startingFrameID := -1
    resolvedFileReferences := []
    virtualReference := 10000
    visitedTreeElements := [] }
  if !s.rememberFileReferencesDuringSession then resetFileReferences s else s

/-- `resumeExecution` (vscriptDebug.ts): drop cached file resolutions
(unless configured to keep them), fire-and-forget remove commands for all
entity-data watches, clear them, send `rd` first when recovering from the
errored state, send `go`, and mark the session ready. -/
def resumeExecution (s : Session) : Session :=
  let entWatches := arrayMapToArray s.entityDataWatches
  let s := if !s.rememberFileReferencesDuringSession then
      { s with resolvedFileReferences := [] } else s
  let s := entWatches.foldl (fun s w => removeWatch s w.id false) s
  let s := { s with entityDataWatches := [], entityDataWatchID := 1000000 }
  let s : Session :=
    if s.debuggerState = DebuggerState.errored then { s with sent := s.sent ++ ["rd\n"] }
    else s
  { s with sent := s.sent ++ ["go\n"], debuggerState := .ready }

/-- `stepOut` (vscriptDebug.ts): send the step-return command when more
than one frame is on the stack, otherwise perform a full resume. -/
def stepOut (s : Session) : Session :=
  if 1 < s.stacktraces.length then
    { s with sent := s.sent ++ ["sr\n"] }
  else
    resumeExecution s

/-- Node's `path.basename` restricted to the forward-slash paths the
engine produces (backslashes are replaced before any basename is taken). -/
def pathBasename (p : String) : String :=
  ((splitSlashChars p.data).map String.mk).getLastD p

/-- Join path components with `/` (for Node's `path.relative` applied to
an ancestor, which yields the remaining components joined). -/
def joinSlash : List String → String
  | [] => ""
  | [c] => c
  | c :: rest => c ++ "/" ++ joinSlash rest

/-- JavaScript `Array.join("; ")`. -/
def joinSemicolon : List String → String
  | [] => ""
  | [x] => x
  | x :: rest => x ++ "; " ++ joinSemicolon rest

/-- The components after the last `vscripts` component of a path, when
one exists: the `while (path.basename(currentpath) !== "vscripts")`
walk of `getRelativeScriptPath` stops at the deepest such ancestor. -/
def relAfterVscripts : List String → Option (List String)
  | [] => none
  | c :: rest =>
    match relAfterVscripts rest with
    | some suffix => some suffix
    | none => if c = "vscripts" then some rest else none

/-- `getRelativeScriptPath` (utilities module, staged in
src/src/entityData.ts:506): walk `path.dirname` up from the source path
until reaching a component named `vscripts`, and return the path relative
to that ancestor; when the walk reaches the filesystem root (the dirname
fixpoint) without finding one, the path is returned unchanged.  Over the
canonical slash-separated paths this embedding works with, that is the
part after the last `vscripts` component. -/
def getRelativeScriptPath (srcpath : String) : String :=
  match relAfterVscripts ((splitSlashChars srcpath.data).map String.mk) with
  | some suffix => joinSlash suffix
  | none => srcpath

/-- `typeStringFromChar` (utilities module, staged in
src/src/entityData.ts:579): map a shortened type character from the debug
server to the readable type name; a character with no match is returned
unchanged. -/
def typeStringFromChar (char : String) : String :=
  match char with
  | "i" => "integer"
  | "f" => "float"
  | "b" => "boolean"
  | "s" => "string"
  | "t" => "table"
  | "a" => "array"
  | "x" => "object"
  | "y" => "class"
  | "fn" => "function"
  | "n" => "null"
  | "g" => "function generator"
  | "h" => "thread"
  | "u" => "userdata"
  | other => other

/-- Return type of `resolveFileReference` (fileReferences module):
`string | string[] | void`. -/
inductive FileResolution where
  | file (p : String)
  | files (ps : List String)
  | nothing
deriving DecidableEq, Repr

/-- `presentFileMissingMessage` (fileReferences module, staged in
src/src/entityData.ts:272): show the file-not-found error message; a
Resume or Step Out answer runs the corresponding session operation; the
bare filename is resolved regardless of the answer (or its absence), so
the reference is registered and not searched again.  The quote marks the
source puts around additionalScriptDirectories are elided from the
recorded text. -/
def presentFileMissingMessage (s : Session) (filename : String) : Session × String :=
  let s := { s with events := s.events ++ [DapEvent.errorMessageEv
    ("File: " ++ filename ++ " not found in the current workspace. Add paths in additionalScriptDirectories to launch.json to search in more specified locations.")] }
  match s.userChoices with
  | [] => (s, filename)
  | choice :: rest =>
    let s := { s with userChoices := rest }
    match choice with
    | UserChoice.resumeChoice => (resumeExecution s, filename)
    | UserChoice.stepOutChoice => (stepOut s, filename)
    | _ => (s, filename)

/-- `presentFileQuickPick` (fileReferences module, staged in
src/src/entityData.ts:311): offer the candidate files followed by a
separator and the step-out, resume and ignore control items; a file item
resolves its path, the step-out and resume items run the corresponding
session operation and resolve nothing, and any other item or a dismissed
pick resolves nothing. -/
def presentFileQuickPick (s : Session) (fileNames : List String) :
    Session × Option String :=
  match s.userChoices with
  | [] => (s, none)
  | choice :: rest =>
    let s := { s with userChoices := rest }
    match choice with
    | UserChoice.pick i =>
      if i < fileNames.length then (s, some (fileNames.getD i ""))
      else if i = fileNames.length + 1 then (stepOut s, none)
      else if i = fileNames.length + 2 then (resumeExecution s, none)
      else (s, none)
    | _ => (s, none)

/-- `resolveFileReference` (fileReferences module, staged in
src/src/entityData.ts:154).  The workspace filesystem search
(`getScriptRootDirectories` plus `findFileRecusive`, or the `fs.stat`
probe of the `scripts/vscripts`-prefixed L4D2 mode) is external to the
embedding; its outcome is read from the session's `fileResolutions`
table, which holds per filename the deduplicated slash-normalized
candidate list (`fileNames` in the source).  A missing or empty entry is
a search that found nothing; the L4D2 failure flag `l4d2_notFound` folds
into emptiness (the source quirk that a failed stat probe keeps the
unverified per-directory joins in `fileNames` is not represented).  The
dispatch is the source's: more than one candidate asks the user (when
`askUser`) or returns the whole array; none raises the error prompt (when
`errorOnMissing`) or returns the bare filename; exactly one returns that
file. -/
def resolveFileReference (s : Session) (filename : String) (errorOnMissing : Bool)
    (askUser : Bool) : Session × FileResolution :=
  let fileNames := (s.fileResolutions.lookup filename).getD []
  if 1 < fileNames.length then
    if askUser then
      match presentFileQuickPick s fileNames with
      | (s, some p) => (s, .file p)
      | (s, none) => (s, .nothing)
    else (s, .files fileNames)
  else if fileNames.length = 0 then
    if errorOnMissing then
      match presentFileMissingMessage s filename with
      | (s, f) => (s, .file f)
    else (s, .file filename)
  else (s, .file (fileNames.headD filename))

/-- `presentFileNotRealMessage` (fileReferences module, staged in
src/src/entityData.ts:300): the information notice that the entry at the
top of the call stack is an internal, non-displayable file. -/
def presentFileNotRealMessage (s : Session) : Session :=
  { s with events := s.events ++ [DapEvent.infoMessageEv
    "For your information the entry at the top of call stack is not an actual file but an internal one which can not be displayed in the editor, thus you will not be able to see its contents."] }

/-- A `<w .../>` watch result inside a call, as produced by xml2js. -/
structure CallWatch where
  id : Nat
  status : String
  val : String
  type : String
deriving DecidableEq, Repr

/-- An `<l .../>` local variable inside a call, as produced by xml2js. -/
structure CallLocal where
  name : String
  type : String
  val : String
deriving DecidableEq, Repr

/-- A `<call .../>` element: function name, source, line, watch results
and locals. -/
structure XmlCall where
  fnc : String
  src : String
  line : Int
  w : List CallWatch
  l : List CallLocal
deriving DecidableEq, Repr

/-- A decoded XML document, keyed by its root element as the decoder
dispatches on it (`addbreakpoint`, `break`, `update`, anything else). -/
inductive XmlDoc where
  | addbreakpoint (line : Nat) (src : String)
  | breakDoc (btype : String) (line : Int) (src : String) (error : Option String)
      (desc : Option String) (objs : List RefObj) (calls : List XmlCall)
  | update (objs : List RefObj) (calls : List XmlCall)
  | otherDoc (root : String)
deriving DecidableEq, Repr

/-- JavaScript truthiness of an optional string attribute (`undefined` and
the empty string are falsy). -/
def jsTruthyStr : Option String → Bool
  | none => false
  | some str => str ≠ ""

/-- The sub-state of the session that the per-step payload parsers
(`parseWatch`, `parseLocalVariable`) read and write: the watch stores, the
per-frame local buckets, the reference tree and its visited list, the
current step's parsed reference list, the root-table reference, and the
read-only display configuration.  The payload parsers are written over
this sub-state and wrapped into session updates, which makes it evident
that they touch nothing else (in particular neither the call stack nor
the event history). -/
structure FrameState where
  watches : List DebuggerWatch
  entityDataWatches : List (Nat × List DebuggerWatch)
  localVariables : List (Nat × List DebuggerVariable)
  visitedTreeElements : List Nat
  referenceTreeChildren : List RefTree
  currentParsedReferences : List RefObj
  rootTableReference : Int
  maxShortData : Nat
  hideNativeFunctions : Bool
  hideClasses : Bool
  displayRootTable : Bool

/-- Project the payload-parser sub-state out of a session. -/
def Session.frameState (s : Session) : FrameState :=
  { watches := s.watches
    entityDataWatches := s.entityDataWatches
    localVariables := s.localVariables
    visitedTreeElements := s.visitedTreeElements
    referenceTreeChildren := s.referenceTreeChildren
    currentParsedReferences := s.currentParsedReferences
    rootTableReference := s.rootTableReference
    maxShortData := s.maxShortData
    hideNativeFunctions := s.hideNativeFunctions
    hideClasses := s.hideClasses
    displayRootTable := s.displayRootTable }

/-- Store a payload-parser sub-state back into a session, leaving every
other field untouched. -/
def Session.withFrameState (s : Session) (fs : FrameState) : Session :=
  { s with
    watches := fs.watches
    entityDataWatches := fs.entityDataWatches
    localVariables := fs.localVariables
    visitedTreeElements := fs.visitedTreeElements
    referenceTreeChildren := fs.referenceTreeChildren
    currentParsedReferences := fs.currentParsedReferences
    rootTableReference := fs.rootTableReference
    maxShortData := fs.maxShortData
    hideNativeFunctions := fs.hideNativeFunctions
    hideClasses := fs.hideClasses
    displayRootTable := fs.displayRootTable }

/-- Replace the first watch with the given id in a list (the source finds
the object and mutates it in place). -/
def updateFirstWatchById : List DebuggerWatch → Nat → DebuggerWatch → List DebuggerWatch
  | [], _, _ => []
  | w :: ws, id, w' => if w.id = id then w' :: ws else w :: updateFirstWatchById ws id w'

/-- Replace the first watch with the given id across the entity-data
buckets, in bucket order (the flattened-array `find` of the source hands
back a reference into one bucket). -/
def updateFirstInBuckets : List (Nat × List DebuggerWatch) → Nat → DebuggerWatch →
    List (Nat × List DebuggerWatch)
  | [], _, _ => []
  | (k, arr) :: rest, id, w' =>
    if arr.any (fun w => w.id = id) then (k, updateFirstWatchById arr id w') :: rest
    else (k, arr) :: updateFirstInBuckets rest id w'

/-- Store an updated watch back where `parseWatchCore` found it: the
regular watch list for ids without the reserved bit, the entity-data
buckets otherwise. -/
def storeWatch (fs : FrameState) (id : Nat) (w' : DebuggerWatch) : FrameState :=
  if id &&& 0x100000 = 0 then
    { fs with watches := updateFirstWatchById fs.watches id w' }
  else
    { fs with entityDataWatches := updateFirstInBuckets fs.entityDataWatches id w' }

/-- `parseWatch` (parsing.ts) over the frame sub-state: record a watch
result against the tracked watch with the same id.  Returns the validated
(id, frame) pair exactly when the status is `ok`; `.error ()` models the
exception thrown while rendering the value (the status flag is already
set by then, the value is not). -/
def parseWatchCore (fs : FrameState) (watch : CallWatch) (currentFrame : Nat) :
    FrameState × Except Unit (Option (Nat × Nat)) :=
  let found :=
    if watch.id &&& 0x100000 = 0 then
      fs.watches.find? (fun e => e.id = watch.id)
    else
      (arrayMapToArray fs.entityDataWatches).find? (fun e => e.id = watch.id)
  match found with
  | none => (fs, .ok none)
  | some w =>
    let w := { w with frameId := currentFrame }
    if watch.status = "ok" then
      let w := { w with status := mapSet w.status currentFrame .ok }
      match variableToValue fs.currentParsedReferences fs.maxShortData watch.val watch.type with
      | .error _ => (storeWatch fs watch.id w, .error ())
      | .ok v =>
        let w := { w with
          values := mapSet w.values currentFrame v
          type := typeStringFromChar watch.type
          isValid := true }
        let w :=
          if isComplexDataType watch.type then
            { w with variableReference := jsToNat watch.val + 1 }
          else w
        let fs := storeWatch fs watch.id w
        let fs :=
          if isComplexDataType watch.type && watch.id = 0 then
            { fs with rootTableReference := (jsToNat watch.val : Int) }
          else fs
        (fs, .ok (some (watch.id, currentFrame)))
    else if watch.status = "error" then
      let w := { w with
        values := mapSet w.values currentFrame (.str "error")
        status := mapSet w.status currentFrame .error }
      (storeWatch fs watch.id w, .ok none)
    else
      (storeWatch fs watch.id w, .ok none)

/-- `parseWatch` at the session level: run the core on the frame sub-state
and store it back. -/
def parseWatch (s : Session) (watch : CallWatch) (currentFrame : Nat) :
    Session × Except Unit (Option (Nat × Nat)) :=
  let (fs, r) := parseWatchCore s.frameState watch currentFrame
  (s.withFrameState fs, r)

/-- `parseLocalVariable` (parsing.ts) over the frame sub-state: build the
variable entry for a local, and for complex types grow the reference tree
under the root, threading the per-step visited list; `.error ()` models a
propagating exception (value rendering, or `buildReferenceTree` on a
missing reference). -/
def parseLocalVariableCore (fs : FrameState) (lv : CallLocal) (currentFrame : Nat) :
    FrameState × Except Unit DebuggerVariable :=
  match variableToValue fs.currentParsedReferences fs.maxShortData lv.val lv.type with
  | .error _ => (fs, .error ())
  | .ok value =>
    let v : DebuggerVariable :=
      { name := lv.name, value := value, type := lv.type
        variablePath := lv.name, frameId := currentFrame }
    if isComplexDataType lv.type then
      let v := if lv.type = "a" then { v with isIndexed := true } else v
      let v := if lv.name = "this" then { v with hidden := true } else v
      -- The native-function arm below cannot fire inside the complex
      -- branch ("native function" is not a complex tag); it is kept as in
      -- the source.
      let v :=
        if lv.type = "native function" && fs.hideNativeFunctions then
          { v with hidden := true }
        else if lv.type = "y" && fs.hideClasses then
          { v with hidden := true }
        else v
      let v := { v with variableReference := jsToNat lv.val + 1 }
      let bres := buildReferenceTree fs.currentParsedReferences (jsToNat lv.val)
        lv.name lv.type 0 fs.visitedTreeElements
      let fs := { fs with visitedTreeElements := bres.visited }
      match bres.out with
      | .error _ => (fs, .error ())
      | .ok newNode =>
        let fs :=
          match newNode with
          | some n => { fs with referenceTreeChildren := fs.referenceTreeChildren ++ [n] }
          | none => fs
        if fs.displayRootTable ∧ (0 : Int) ≤ fs.rootTableReference then
          let bres2 := buildReferenceTree fs.currentParsedReferences fs.rootTableReference.toNat
            "@ROOTTABLE@" "t" 0 fs.visitedTreeElements
          let fs := { fs with visitedTreeElements := bres2.visited }
          match bres2.out with
          | .error _ => (fs, .error ())
          | .ok rootNode =>
            let fs :=
              match rootNode with
              | some n => { fs with referenceTreeChildren := fs.referenceTreeChildren ++ [n] }
              | none => fs
            (fs, .ok v)
        else (fs, .ok v)
    else (fs, .ok v)

/-- `parseLocalVariable` at the session level: run the core on the frame
sub-state and store it back. -/
def parseLocalVariable (s : Session) (lv : CallLocal) (currentFrame : Nat) :
    Session × Except Unit DebuggerVariable :=
  let (fs, r) := parseLocalVariableCore s.frameState lv currentFrame
  (s.withFrameState fs, r)

/-- The source-resolution step of `parseCall`: for a `.nut` source consult
the resolved-file cache and `resolveFileReference` (with the error prompt
and the user quick pick on the top frame, fire-and-forget lower on the
stack — where an ambiguous array resolves to its first file without being
cached); for anything else use the source name directly, deemphasized,
with the not-a-real-file notice on the top frame.  Returns the session,
`none` for the source's early return without a frame, or the frame's
source name and path, plus the deemphasize flag. -/
def parseCallResolve (s : Session) (source : String) (firstCall : Bool) :
    Session × Option (String × Option String) × Bool :=
  if jsEndsWith source ".nut" then
    if firstCall then
      let fileRefData := s.resolvedFileReferences.lookup source
      let needsResolve :=
        match fileRefData with
        | none => true
        | some frd => frd.count > 1
      if needsResolve then
        match resolveFileReference s source true true with
        | (s, .file p) =>
          let s := { s with
            resolvedFileReferences := mapSet s.resolvedFileReferences source ⟨p, 1⟩ }
          (s, some (pathBasename p, some p), false)
        | (s, .files _) => (s, none, false)
        | (s, .nothing) => (s, none, false)
      else
        match fileRefData with
        | some frd => (s, some (pathBasename frd.fullpath, some frd.fullpath), false)
        | none => (s, none, false)
    else
      match resolveFileReference s source false false with
      | (s, .files ps) =>
        match ps with
        | p :: _ => (s, some (pathBasename p, some p), false)
        | [] => (s, none, false)
      | (s, .file p) =>
        let s := { s with
          resolvedFileReferences := mapSet s.resolvedFileReferences source ⟨p, 1⟩ }
        (s, some (pathBasename p, some p), false)
      | (s, .nothing) => (s, none, false)
  else
    let s := if firstCall then presentFileNotRealMessage s else s
    (s, some (source, none), true)

/-- `parseCall` (parsing.ts): build a stack frame for one call, resolving
`.nut` sources through `resolveFileReference`; `none` when no resolution
is available (the source returns without a frame). -/
def parseCall (s : Session) (call : XmlCall) (forceLineNumber : Option Int)
    (correctedSource : Option String) : Session × Option ModelStackFrame :=
  let firstCall := decide (s.stackFrameID = 0)
  let source := correctedSource.getD call.src
  match parseCallResolve s source firstCall with
  | (s, none, _) => (s, none)
  | (s, some (srcName, srcPath), deemph) =>
    let line := forceLineNumber.getD call.line
    let frame : ModelStackFrame :=
      { id := s.stackFrameID, name := call.fnc, line := line
        srcName := srcName, srcPath := srcPath, deemphasized := deemph }
    ({ s with stackFrameID := s.stackFrameID + 1 }, some frame)

/-- Verify the first breakpoint with the given line in a list; returns the
updated list and the verified breakpoint when found. -/
def verifyBpInList : List IBreakpoint → Nat → List IBreakpoint × Option IBreakpoint
  | [], _ => ([], none)
  | bp :: rest, line =>
    if bp.line = line then
      let bp' := { bp with verified := true }
      (bp' :: rest, some bp')
    else
      let (rest', found) := verifyBpInList rest line
      (bp :: rest', found)

/-- `parseBreakpoint` (parsing.ts): match an `addbreakpoint`
acknowledgement to tracked breakpoints — by full path when the key is
known, otherwise by basename across every file — marking matches verified
and firing change events. -/
def parseBreakpoint (s : Session) (bpLine : Nat) (bpFile : String) : Session :=
  let relativeScriptPath := getRelativeScriptPath bpFile
  match s.breakpoints.lookup relativeScriptPath with
  | some bps =>
    let (bps', found) := verifyBpInList bps bpLine
    match found with
    | some bp =>
      { s with
          breakpoints := mapSet s.breakpoints relativeScriptPath bps'
          events := s.events ++ [.breakpointChangedEv bp.id bp.line true] }
    | none => s
  | none =>
    s.breakpoints.foldl
      (fun s kv =>
        if pathBasename kv.1 = relativeScriptPath then
          let bps := (s.breakpoints.lookup kv.1).getD []
          let (bps', found) := verifyBpInList bps bpLine
          match found with
          | some bp =>
            { s with
                breakpoints := mapSet s.breakpoints kv.1 bps'
                events := s.events ++ [.breakpointChangedEv bp.id bp.line true] }
          | none => s
        else s) s

/-- The watch loop of one call: apply `parseWatch` to each `<w/>` element,
aborting on a thrown exception.  The source also collects the validated
pairs into a local `validatedWatchesIDs` array, but its dedup test
compares freshly allocated pair arrays by reference and the array is
never read afterwards, so it is not part of the state. -/
def parseWatchListCore (fs : FrameState) (ws : List CallWatch) (currentFrame : Nat) :
    FrameState × Bool :=
  match ws with
  | [] => (fs, false)
  | w :: rest =>
    match parseWatchCore fs w currentFrame with
    | (fs, .error _) => (fs, true)
    | (fs, .ok _) => parseWatchListCore fs rest currentFrame

/-- The watch loop at the session level. -/
def parseWatchList (s : Session) (ws : List CallWatch) (currentFrame : Nat) :
    Session × Bool :=
  let (fs, threw) := parseWatchListCore s.frameState ws currentFrame
  (s.withFrameState fs, threw)

/-- The locals loop of one call: parse each `<l/>` element and push the
result into the frame-0 local-variable bucket, aborting on a thrown
exception. -/
def parseLocalsListCore (fs : FrameState) (ls : List CallLocal) (currentFrame : Nat) :
    FrameState × Bool :=
  match ls with
  | [] => (fs, false)
  | l :: rest =>
    match parseLocalVariableCore fs l currentFrame with
    | (fs, .error _) => (fs, true)
    | (fs, .ok v) =>
      let bucket := (fs.localVariables.lookup 0).getD []
      let fs := { fs with localVariables := mapSet fs.localVariables 0 (bucket ++ [v]) }
      parseLocalsListCore fs rest currentFrame

/-- The locals loop at the session level. -/
def parseLocalsList (s : Session) (ls : List CallLocal) (currentFrame : Nat) :
    Session × Bool :=
  let (fs, threw) := parseLocalsListCore s.frameState ls currentFrame
  (s.withFrameState fs, threw)

/-- The `for (let call of ...)` loop of `parseReceivedData`: for step-stop
frames build the stack (with the first frame's line/source corrected from
the `break` attributes) and assign it to the session on every iteration;
for both frame kinds parse watch results and locals.  The boolean reports
a propagating exception, which aborts the loop. -/
def processCalls (s : Session) (isUpdate : Bool) (breakLine : Int) (breakSrc : String)
    (calls : List XmlCall) (currentFrame : Nat) (stackFrames : List ModelStackFrame) :
    Session × Bool :=
  match calls with
  | [] => (s, false)
  | call :: rest =>
    let (s, stackFrames) :=
      if !isUpdate then
        let (corrLine, corrSrc) :=
          if s.stackFrameID = 0 then (some breakLine, some breakSrc) else (none, none)
        let (s, frame?) := parseCall s call corrLine corrSrc
        let stackFrames := stackFrames ++ frame?.toList
        ({ s with stacktraces := stackFrames }, stackFrames)
      else (s, stackFrames)
    match parseWatchList s call.w currentFrame with
    | (s, true) => (s, true)
    | (s, false) =>
      match parseLocalsList s call.l currentFrame with
      | (s, true) => (s, true)
      | (s, false) =>
        processCalls s isUpdate breakLine breakSrc rest (currentFrame + 1) stackFrames

/-- The payload evolution of the call loop on the frame sub-state alone:
the watch loop and the locals loop of every call, in order, with the
per-call frame counter; identical for step-stop and refresh frames (the
step-stop loop additionally builds the stack, which lives outside the
frame sub-state). -/
def payloadCore (fs : FrameState) (calls : List XmlCall) (currentFrame : Nat) :
    FrameState × Bool :=
  match calls with
  | [] => (fs, false)
  | call :: rest =>
    match parseWatchListCore fs call.w currentFrame with
    | (fs, true) => (fs, true)
    | (fs, false) =>
      match parseLocalsListCore fs call.l currentFrame with
      | (fs, true) => (fs, true)
      | (fs, false) => payloadCore fs rest (currentFrame + 1)

/-- The trace string rendered for an exception stop: one line per frame,
the innermost marked. -/
def buildTraceString (frames : List ModelStackFrame) : String :=
  go frames true
where
  go : List ModelStackFrame → Bool → String
  | [], _ => ""
  | f :: rest, isFirst =>
    f.name ++ "\t(" ++ f.srcName ++ " @ line " ++ toString f.line ++ ")"
      ++ (if isFirst then " <- HERE" else "") ++ "\n"
      ++ go rest false

/-- `decode` — stands in for the external html-entities decoder applied to
the error attribute; entity decoding is not observable by any claim, so
the text passes through unchanged (`undefined` decodes to the empty
string). -/
def jsDecode (o : Option String) : String := o.getD ""

/-- The per-step reset at the head of a step-stop/refresh parse: install
the new reference list and clear every ephemeral per-step structure (the
local-variable buckets, the root variables, the reference tree, the frame
cursors and the virtual-reference counter). -/
def resetStepState (s : Session) (objs : List RefObj) : Session :=
  { s with
    currentParsedReferences := objs
    localVariables := [(0, [])]
    rootVariables := []
    referenceTreeRootElement := ⟨0, "@root@", "r"⟩
    referenceTreeChildren := []
    startingFrameID := -1
    virtualReference := 10000
    currentFrameID := 0 }

/-- The stop tail of a step-stop frame: fire the stopped event and move
the session state according to the stop reason; for the error reason,
capture the exception description and the rendered stack-trace string
(reading the innermost frame of an empty stack throws, which the async
callback swallows after the state has already moved to errored). -/
def stopEvents (s : Session) (reason : String) (currentLineBreak : Int)
    (berror : Option String) : Session :=
  if reason = "breakpoint" then
    { s with
        events := s.events ++ [.stoppedEv reason none]
        debuggerState := .stopped }
  else if reason = "error" then
    let exception := jsDecode berror
    let s := { s with debuggerState := .errored }
    match s.stacktraces with
    | [] => s
    | top :: _ =>
      let path :=
        match top.srcPath with
        | some p => if p = "" then "<unknown>" else p
        | none => "<unknown>"
      let description := "An error has occured in " ++ path ++ " at line "
        ++ toString currentLineBreak ++ ": " ++ exception ++ "\n"
      let s := { s with events := s.events ++ [DapEvent.outputEv description "stderr"] }
      let s := { s with
        exceptionDescription := exception
        exceptionStackTrace := buildTraceString s.stacktraces }
      { s with events := s.events ++ [DapEvent.stoppedEv "exception" (some exception)] }
  else
    { s with
        events := s.events ++ [.stoppedEv reason none]
        debuggerState := .stopped }

/-- The shared step-stop/refresh handler inside `parseReceivedData`'s
parse callback: reset all ephemeral per-step structures, process every
call, then fire the refresh invalidation (update) or the stop events and
state transitions (break).  A propagating exception is swallowed by the
async callback, leaving the state mutated so far. -/
def processStop (s : Session) (isUpdate : Bool) (btype : String) (bline : Int)
    (bsrc : String) (berror : Option String) (objs : List RefObj)
    (calls : List XmlCall) : Session :=
  let reason := if isUpdate then "" else btype
  let currentLineBreak : Int := if isUpdate then 1 else bline
  let s := resetStepState s objs
  match processCalls s isUpdate bline bsrc calls 0 [] with
  | (s, true) => s
  | (s, false) =>
    if isUpdate then
      { s with events := s.events ++ [.invalidatedEv] }
    else
      stopEvents s reason currentLineBreak berror

/-- The dispatch of `parseReceivedData`'s parse callback on the decoded
document root: breakpoint acknowledgements, step-stop frames without a
description, refresh frames; everything else returns untouched. -/
def handleParsedData (s : Session) (doc : XmlDoc) : Session :=
  match doc with
  | .addbreakpoint line src => parseBreakpoint s line src
  | .breakDoc btype bline bsrc berror bdesc objs calls =>
    if jsTruthyStr bdesc then s
    else processStop s false btype bline bsrc berror objs calls
  | .update objs calls => processStop s true "" 0 "" none objs calls
  | .otherDoc _ => s

/-- Outcome of the string-level phase of `parseReceivedData` before the
XML parse: the resumed-acknowledgement branch, the exception auto-resume
branch, or handing the frame to the full parser. -/
inductive PreOutcome where
  | resumedAck (s : Session)
  | autoResume (s : Session)
  | fullParse (s : Session)

/-- The string-level phase of `parseReceivedData` (parsing.ts): cancel the
resume-workaround timer, handle the literal resumed acknowledgement,
clear the per-step validation list, and auto-resume on the exception
pre-check; any other frame proceeds to the full XML parse. -/
def parseReceivedDataPre (s : Session) (receivedData : String) : PreOutcome :=
  let s := { s with resumeTimerActive := false }
  if receivedData = "<resumed/>\r\n" then
    let s := { s with debuggerState := .runnning }
    let s := resetState s
    let s := if s.scriptVersion = .squirrel3 then cleanupUnusedWatches s else s
    .resumedAck { s with events := s.events ++ [.continuedEv] }
  else
    let s := { s with watchesThisStep := [] }
    if s.resumeOnExceptions ∧ s.debuggerState ≠ .stopped ∧ errorPrecheck receivedData then
      .autoResume (resetFileReferences (resumeExecution s))
    else
      .fullParse s

/-- `parseXml` — Modelled from the spec: stands in for the external xml2js
`parseString`.  Payload-carrying documents (`break`, `update`,
`addbreakpoint`) are analysed at the parsed-document level (`XmlDoc`) and
never through this string-level function, which only recognises
self-closing marker documents such as `<resumed/>`; anything else reports
a parse failure. -/
def parseXml (str : String) : Option XmlDoc :=
  let cs := str.data
  if cs.take 1 = ['<'] && cs.drop (cs.length - 2) = ['/', '>'] then
    let name := (cs.drop 1).take (cs.length - 3)
    if name ≠ [] && name.all (fun c => !(['<', '>', '/', ' '].contains c))
        && !(["break", "update", "addbreakpoint"].contains (String.mk name)) then
      some (.otherDoc (String.mk name))
    else none
  else none

/-- `parseReceivedData` (parsing.ts) over one terminator-stripped frame:
the string-level phase, then the XML parse — whose failure emits a
diagnostic and resumes — and the document dispatch. -/
def parseReceivedData (s : Session) (receivedData : String) : Session :=
  match parseReceivedDataPre s receivedData with
  | .resumedAck s' => s'
  | .autoResume s' => s'
  | .fullParse s' =>
    match parseXml receivedData with
    | none =>
      let s' := { s' with events := s'.events ++
        [.outputEv "An error has occured while parsing data from the server" "stderr"] }
      resumeExecution s'
    | some doc => handleParsedData s' doc

/-- `onRecieveData` (vscriptDebug.ts): append to the receive buffer;
decode nothing until the buffer ends with the CRLF terminator, then split
on the terminator, hand every non-empty segment to the decoder, and
finally clear the buffer and the per-step reference bookkeeping.  The
second component of the result is the list of segments handed to the
decoder (iterating all segments while skipping the empty ones is
iterating the non-empty ones).  `getScriptRootPath` is workspace glue and
leaves the modelled `currentWorkPath` unchanged; an exception inside the
parse callback cannot reach the surrounding catch because the callback is
asynchronous, so every segment is dispatched. -/
def onRecieveData (s : Session) (data : String) : Session × List String :=
  let s := { s with bufferedData := s.bufferedData ++ data }
  if !(jsEndsWith s.bufferedData "\r\n") then (s, [])
  else
    let s := { s with stackFrameID := 0 }
    let segments := jsSplitCRLF s.bufferedData
    let decoded := segments.filter (fun seg => seg.length > 0)
    let s := decoded.foldl (fun s seg => parseReceivedData s seg) s
    ({ s with bufferedData := "", usedVariableReferences := [0], visitedTreeElements := [] },
      decoded)

/-- JavaScript `Map.get` where the stored keys are `[basename, line]`
tuple literals: `Map` compares object keys by reference (SameValueZero)
and the tuple passed at every call site is freshly allocated, so the
lookup never finds an entry and always yields `undefined`. -/
def jsTupleMapGet (_m : List ((String × Nat) × Int)) (_key : String × Nat) :
    Option Int := none

/-- JavaScript `Map.delete` with a fresh tuple key: no stored key is the
same object, so nothing is removed. -/
def jsTupleMapDelete (m : List ((String × Nat) × Int)) (_key : String × Nat) :
    List ((String × Nat) × Int) := m

/-- JavaScript `Map.set` with a fresh tuple key: no stored key is the same
object, so a new entry is always appended. -/
def jsTupleMapSet (m : List ((String × Nat) × Int)) (key : String × Nat) (v : Int) :
    List ((String × Nat) × Int) := m ++ [(key, v)]

/-- The requested-lines pass of `setBreakPointsRequest`: rebuild the
path's breakpoint list from the requested lines, reusing the verified
flag of an unchanged line and assigning fresh sequential ids. -/
def mkNewBps (origBps : List IBreakpoint) (lines : List Nat) (startId : Nat) :
    List IBreakpoint × Nat :=
  match lines with
  | [] => ([], startId)
  | l :: rest =>
    let isVerified :=
      match origBps.find? (fun bp => bp.line = l) with
      | some existingBp => existingBp.verified
      | none => true
    let bp : IBreakpoint := { id := startId, line := l, verified := isVerified }
    let (bps, nextId) := mkNewBps origBps rest (startId + 1)
    (bp :: bps, nextId)

/-- One iteration of the removed-lines loop of `setBreakPointsRequest`:
decrement the (basename, line) wire refcount and emit the remove command
when it reaches zero — through the reference-keyed tuple `Map`, whose
`get` always yields `undefined`, so the decremented count is always
`-1`. -/
def processBpRemovalStep (bpPath : String) (s : Session) (bp : IBreakpoint) : Session :=
  let refCount := (jsTupleMapGet s.breakpointsRefCount (pathBasename bpPath, bp.line)).getD 0
  let refCount : Int := refCount - 1
  if refCount ≤ 0 then
    { s with
        sent := s.sent ++ [rbCmd bpPath bp.line]
        breakpointsRefCount :=
          jsTupleMapDelete s.breakpointsRefCount (pathBasename bpPath, bp.line) }
  else
    { s with breakpointsRefCount :=
        jsTupleMapSet s.breakpointsRefCount (pathBasename bpPath, bp.line) refCount }

/-- The removed-lines loop of `setBreakPointsRequest`. -/
def processBpRemovals (s : Session) (bpPath : String) (bps : List IBreakpoint) :
    Session :=
  bps.foldl (processBpRemovalStep bpPath) s

/-- The once-per-basename notification of the added-lines loop: record
the basename as notified and, when the fire-and-forget resolution finds
several files of that name, surface the engine-bug warning listing their
relativized paths (the source message's trailing sentence, which holds
quote characters, is elided from the recorded text). -/
def bpInclusionNotify (s : Session) (bpPath : String) : Session :=
  if s.notifiedFileBreakpoints.contains (pathBasename bpPath) then s
  else
    let s := { s with notifiedFileBreakpoints :=
      s.notifiedFileBreakpoints ++ [pathBasename bpPath] }
    match resolveFileReference s (pathBasename bpPath) false false with
    | (s, .files files) =>
      let files := files.map (fun file => getRelativeScriptPath file)
      if 1 < files.length then
        { s with events := s.events ++ [DapEvent.warningMessageEv
          ("Adding breakpoint to this file will cause it to be added to the following files of the same name regardless of the path due to a bug in the engine. [[ "
            ++ joinSemicolon files ++ " ]]")] }
      else s
    | (s, _) => s

/-- One iteration of the added-lines loop of `setBreakPointsRequest`: emit
the add command unconditionally, surface the one-shot basename-collision
warning, and increment the wire refcount (again through the
reference-keyed tuple `Map`, so a fresh entry with count 1 is appended
every time). -/
def processBpInclusionStep (bpPath : String) (s : Session) (bp : IBreakpoint) : Session :=
  let s := { s with sent := s.sent ++ [abCmd bpPath bp.line] }
  let s := bpInclusionNotify s bpPath
  let refCount := (jsTupleMapGet s.breakpointsRefCount (pathBasename bpPath, bp.line)).getD 0
  let refCount : Int := refCount + 1
  { s with breakpointsRefCount :=
      jsTupleMapSet s.breakpointsRefCount (pathBasename bpPath, bp.line) refCount }

/-- The added-lines loop of `setBreakPointsRequest`. -/
def processBpInclusions (s : Session) (bpPath : String) (bps : List IBreakpoint) :
    Session :=
  bps.foldl (processBpInclusionStep bpPath) s

/-- The core of `setBreakPointsRequest` (vscriptDebug.ts): replace the
path's breakpoint set with the requested lines, diff against the previous
set, and run the removal and inclusion loops.  The surrounding DAP
request/response envelope and the wait-for-connection promise are glue
outside the model. -/
def setBreakPointsRequest (s : Session) (sourcePath : String) (lines : List Nat) :
    Session :=
  let bpPath := replaceBackslashes (getRelativeScriptPath sourcePath)
  let originalBps := (s.breakpoints.lookup bpPath).getD []
  let (newBps, nextId) := mkNewBps originalBps lines s.breakpointID
  let s := { s with
    breakpoints := mapSet s.breakpoints bpPath newBps
    breakpointID := nextId }
  let bpsForRemoval := originalBps.filter fun e => !(newBps.any (fun b => b.line = e.line))
  let bpsForInclusion := newBps.filter fun e => !(originalBps.any (fun b => b.line = e.line))
  let s := processBpRemovals s bpPath bpsForRemoval
  processBpInclusions s bpPath bpsForInclusion

/-! ### Structural lemmas about the frame sub-state -/

@[simp] theorem frameState_withFrameState (s : Session) (fs : FrameState) :
    (s.withFrameState fs).frameState = fs := rfl

@[simp] theorem withFrameState_self (s : Session) :
    s.withFrameState s.frameState = s := rfl

@[simp] theorem withFrameState_idem (s : Session) (fs fs' : FrameState) :
    (s.withFrameState fs).withFrameState fs' = s.withFrameState fs' := rfl

@[simp] theorem withFrameState_stacktraces (s : Session) (fs : FrameState) :
    (s.withFrameState fs).stacktraces = s.stacktraces := rfl

@[simp] theorem withFrameState_events (s : Session) (fs : FrameState) :
    (s.withFrameState fs).events = s.events := rfl

@[simp] theorem withFrameState_watches (s : Session) (fs : FrameState) :
    (s.withFrameState fs).watches = fs.watches := rfl

@[simp] theorem withFrameState_localVariables (s : Session) (fs : FrameState) :
    (s.withFrameState fs).localVariables = fs.localVariables := rfl

@[simp] theorem frameState_watches (s : Session) :
    s.frameState.watches = s.watches := rfl

@[simp] theorem frameState_localVariables (s : Session) :
    s.frameState.localVariables = s.localVariables := rfl

@[simp] theorem frameState_setStackFrameID (s : Session) (n : Nat) :
    ({ s with stackFrameID := n } : Session).frameState = s.frameState := rfl

@[simp] theorem frameState_setStacktraces (s : Session) (z : List ModelStackFrame) :
    ({ s with stacktraces := z } : Session).frameState = s.frameState := rfl

@[simp] theorem withFrameState_userChoices (s : Session) (fs : FrameState) :
    (s.withFrameState fs).userChoices = s.userChoices := rfl

@[simp] theorem userChoices_setStackFrameID (s : Session) (n : Nat) :
    ({ s with stackFrameID := n } : Session).userChoices = s.userChoices := rfl

@[simp] theorem userChoices_setStacktraces (s : Session) (z : List ModelStackFrame) :
    ({ s with stacktraces := z } : Session).userChoices = s.userChoices := rfl

@[simp] theorem resetStepState_userChoices (s : Session) (objs : List RefObj) :
    (resetStepState s objs).userChoices = s.userChoices := rfl

set_option maxHeartbeats 1000000 in
/-- With no pending user answer queued, `resolveFileReference` never
touches the frame sub-state and queues no answer: both prompts fall
through to their dismissed outcome, leaving at most a new event (a queued
resume or step-out answer, by contrast, runs the corresponding session
operation). -/
theorem resolveFileReference_frameState (s : Session) (filename : String)
    (eom au : Bool) (h : s.userChoices = []) :
    (resolveFileReference s filename eom au).1.frameState = s.frameState
    ∧ (resolveFileReference s filename eom au).1.userChoices = [] := by
  rw [resolveFileReference, presentFileQuickPick, presentFileMissingMessage]
  dsimp only
  rw [h]
  dsimp only
  repeat' split
  all_goals first
    | exact ⟨rfl, rfl⟩
    | exact ⟨rfl, h⟩

set_option maxHeartbeats 1000000 in
/-- With no pending user answer queued, the resolution step of `parseCall`
never touches the frame sub-state and queues no answer: it only updates
the resolved-file cache and the event history. -/
theorem parseCallResolve_frameState (s : Session) (source : String) (firstCall : Bool)
    (h : s.userChoices = []) :
    (parseCallResolve s source firstCall).1.frameState = s.frameState
    ∧ (parseCallResolve s source firstCall).1.userChoices = [] := by
  have hT := resolveFileReference_frameState s source true true h
  have hF := resolveFileReference_frameState s source false false h
  rw [parseCallResolve]
  rcases hrT : resolveFileReference s source true true with ⟨sT, rT⟩
  rcases hrF : resolveFileReference s source false false with ⟨sF, rF⟩
  rw [hrT] at hT
  rw [hrF] at hF
  obtain ⟨hT1, hT2⟩ := hT
  obtain ⟨hF1, hF2⟩ := hF
  rcases rT with pT | psT | _ <;> rcases rF with pF | psF | _ <;>
    dsimp only <;> (repeat' split) <;>
    first
      | exact ⟨hT1, hT2⟩
      | exact ⟨hF1, hF2⟩
      | exact ⟨rfl, h⟩

set_option maxHeartbeats 1000000 in
/-- With no pending user answer queued, `parseCall` never touches the
frame sub-state and queues no answer: it only updates the resolved-file
cache, the frame counter, and the event history. -/
theorem parseCall_frameState (s : Session) (call : XmlCall) (fl : Option Int)
    (cs : Option String) (h : s.userChoices = []) :
    (parseCall s call fl cs).1.frameState = s.frameState
    ∧ (parseCall s call fl cs).1.userChoices = [] := by
  rw [parseCall]
  rcases hr : parseCallResolve s (cs.getD call.src) (decide (s.stackFrameID = 0))
    with ⟨s1, opt, d⟩
  have h1 : s1.frameState = s.frameState ∧ s1.userChoices = [] := by
    have hc := parseCallResolve_frameState s (cs.getD call.src)
      (decide (s.stackFrameID = 0)) h
    rwa [hr] at hc
  rcases opt with _ | ⟨name, path⟩
  · exact h1
  · simpa using h1

/-- Unfolding equation of the session-level watch loop. -/
theorem parseWatchList_eq (s : Session) (ws : List CallWatch) (cf : Nat) :
    parseWatchList s ws cf
      = (s.withFrameState (parseWatchListCore s.frameState ws cf).1,
         (parseWatchListCore s.frameState ws cf).2) := rfl

/-- Unfolding equation of the session-level locals loop. -/
theorem parseLocalsList_eq (s : Session) (ls : List CallLocal) (cf : Nat) :
    parseLocalsList s ls cf
      = (s.withFrameState (parseLocalsListCore s.frameState ls cf).1,
         (parseLocalsListCore s.frameState ls cf).2) := rfl

/-- Unfolding equation of `payloadCore` on a cons. -/
theorem payloadCore_cons (fs : FrameState) (call : XmlCall) (rest : List XmlCall)
    (cf : Nat) :
    payloadCore fs (call :: rest) cf
      = (match parseWatchListCore fs call.w cf with
         | (fs, true) => (fs, true)
         | (fs, false) =>
           match parseLocalsListCore fs call.l cf with
           | (fs, true) => (fs, true)
           | (fs, false) => payloadCore fs rest (cf + 1)) := rfl

/-- Unfolding equation of the call loop on a cons, refresh variant: the
stack-building part reduces away. -/
theorem processCalls_cons_update (bl : Int) (bs : String) (call : XmlCall)
    (rest : List XmlCall) (s : Session) (cf : Nat) (sf : List ModelStackFrame) :
    processCalls s true bl bs (call :: rest) cf sf
      = (match parseWatchList s call.w cf with
         | (s, true) => (s, true)
         | (s, false) =>
           match parseLocalsList s call.l cf with
           | (s, true) => (s, true)
           | (s, false) => processCalls s true bl bs rest (cf + 1) sf) := rfl

set_option maxHeartbeats 4000000 in
/-- Unfolding equation of the call loop on a cons, step-stop variant. -/
theorem processCalls_cons_break (bl : Int) (bs : String) (call : XmlCall)
    (rest : List XmlCall) (s : Session) (cf : Nat) (sf : List ModelStackFrame) :
    processCalls s false bl bs (call :: rest) cf sf
      = (match (if s.stackFrameID = 0 then ((some bl : Option Int), (some bs : Option String))
           else (none, none)) with
         | (corrLine, corrSrc) =>
           match parseCall s call corrLine corrSrc with
           | (s1, fr) =>
             match parseWatchList { s1 with stacktraces := sf ++ fr.toList } call.w cf with
             | (s, true) => (s, true)
             | (s, false) =>
               match parseLocalsList s call.l cf with
               | (s, true) => (s, true)
               | (s, false) => processCalls s false bl bs rest (cf + 1) (sf ++ fr.toList)) := rfl

set_option maxHeartbeats 1000000 in
/-- The step-stop/refresh call loop on a refresh frame is exactly the
payload evolution of the frame sub-state: the stack-building part is
skipped and everything else factors through `payloadCore`. -/
theorem processCalls_update (bl : Int) (bs : String) (calls : List XmlCall) :
    ∀ (s : Session) (cf : Nat) (sf : List ModelStackFrame),
    processCalls s true bl bs calls cf sf
      = (s.withFrameState (payloadCore s.frameState calls cf).1,
         (payloadCore s.frameState calls cf).2) := by
  induction calls with
  | nil => intro s cf sf; exact rfl
  | cons call rest ih =>
    intro s cf sf
    rw [processCalls_cons_update, payloadCore_cons, parseWatchList_eq]
    rcases hw : parseWatchListCore s.frameState call.w cf with ⟨fs1, b1⟩
    cases b1 with
    | true => rfl
    | false =>
      dsimp only
      rw [parseLocalsList_eq, frameState_withFrameState]
      rcases hl : parseLocalsListCore fs1 call.l cf with ⟨fs2, b2⟩
      cases b2 with
      | true => rfl
      | false => exact ih (s.withFrameState fs2) (cf + 1) sf

set_option maxHeartbeats 1000000 in
/-- On a step-stop frame, with no pending user answer queued, the call
loop evolves the frame sub-state by the same payload evolution as on a
refresh frame (the stack-building part lives outside the frame
sub-state), and aborts at the same point. -/
theorem processCalls_break_frame (bl : Int) (bs : String) (calls : List XmlCall) :
    ∀ (s : Session) (cf : Nat) (sf : List ModelStackFrame), s.userChoices = [] →
    ((processCalls s false bl bs calls cf sf).1.frameState,
     (processCalls s false bl bs calls cf sf).2)
      = payloadCore s.frameState calls cf := by
  induction calls with
  | nil => intro s cf sf _; exact rfl
  | cons call rest ih =>
    intro s cf sf h
    rw [processCalls_cons_break, payloadCore_cons]
    generalize (if s.stackFrameID = 0 then ((some bl : Option Int), (some bs : Option String))
      else (none, none)) = p
    rcases p with ⟨corrLine, corrSrc⟩
    rcases hp : parseCall s call corrLine corrSrc with ⟨s1, fr⟩
    have h1 : s1.frameState = s.frameState ∧ s1.userChoices = [] := by
      have hc := parseCall_frameState s call corrLine corrSrc h
      rwa [hp] at hc
    obtain ⟨hfs, huc⟩ := h1
    dsimp only
    rw [hp]
    dsimp only
    rw [parseWatchList_eq]
    rw [show (({ s1 with stacktraces := sf ++ fr.toList } : Session)).frameState
      = s.frameState from hfs]
    rcases hw : parseWatchListCore s.frameState call.w cf with ⟨fs1, b1⟩
    cases b1 with
    | true => rfl
    | false =>
      dsimp only
      rw [parseLocalsList_eq, frameState_withFrameState]
      rcases hl : parseLocalsListCore fs1 call.l cf with ⟨fs2, b2⟩
      cases b2 with
      | true => rfl
      | false =>
        exact ih (({ s1 with stacktraces := sf ++ fr.toList } : Session).withFrameState fs2)
          (cf + 1) (sf ++ fr.toList) (by simpa using huc)

@[simp] theorem resetStepState_stacktraces (s : Session) (objs : List RefObj) :
    (resetStepState s objs).stacktraces = s.stacktraces := rfl

@[simp] theorem resetStepState_events (s : Session) (objs : List RefObj) :
    (resetStepState s objs).events = s.events := rfl

set_option maxHeartbeats 1000000 in
/-- The stop tail only fires events and moves the state: it never touches
the watch store or the local-variable buckets. -/
theorem stopEvents_watches_localVariables (s : Session) (r : String) (l : Int)
    (e : Option String) :
    (stopEvents s r l e).watches = s.watches
    ∧ (stopEvents s r l e).localVariables = s.localVariables := by
  rw [stopEvents]
  dsimp only
  repeat' split
  all_goals exact ⟨rfl, rfl⟩

/-- Unfolding equation of the step-stop/refresh handler. -/
theorem processStop_eq (s : Session) (isUpdate : Bool) (btype : String) (bline : Int)
    (bsrc : String) (berror : Option String) (objs : List RefObj) (calls : List XmlCall) :
    processStop s isUpdate btype bline bsrc berror objs calls
      = (match processCalls (resetStepState s objs) isUpdate bline bsrc calls 0 [] with
         | (s', true) => s'
         | (s', false) =>
           if isUpdate then { s' with events := s'.events ++ [DapEvent.invalidatedEv] }
           else stopEvents s' (if isUpdate then "" else btype)
             (if isUpdate then 1 else bline) berror) := rfl

/-- C6: processing a refresh frame (XML root `update`) parses the same
payload — the watch results and locals end up exactly as they do for a
step-stop frame carrying the same objects and calls — but the call-stack
array is left completely unchanged and no stopped event fires (at most an
invalidated event is appended).  The session is taken with no pending
user answer queued: a queued resume or step-out answer to a file prompt
would run the corresponding session operation in the middle of the
step-stop parse only, which is outside this claim. -/
theorem update_preserves_stack_no_stop (s : Session) (objs : List RefObj)
    (calls : List XmlCall) (btype : String) (bline : Int) (bsrc : String)
    (berror : Option String) (h : s.userChoices = []) :
    (handleParsedData s (.update objs calls)).stacktraces = s.stacktraces
    ∧ ((handleParsedData s (.update objs calls)).events = s.events
       ∨ (handleParsedData s (.update objs calls)).events
           = s.events ++ [DapEvent.invalidatedEv])
    ∧ (handleParsedData s (.update objs calls)).watches
        = (handleParsedData s (.breakDoc btype bline bsrc berror none objs calls)).watches
    ∧ (handleParsedData s (.update objs calls)).localVariables
        = (handleParsedData s
            (.breakDoc btype bline bsrc berror none objs calls)).localVariables := by
  have hu : handleParsedData s (.update objs calls)
      = processStop s true "" 0 "" none objs calls := rfl
  have hb : handleParsedData s (.breakDoc btype bline bsrc berror none objs calls)
      = processStop s false btype bline bsrc berror objs calls := rfl
  rw [hu, hb, processStop_eq, processStop_eq]
  have hupd := processCalls_update 0 "" calls (resetStepState s objs) 0 []
  have hbrk := processCalls_break_frame bline bsrc calls (resetStepState s objs) 0 []
    (by simpa using h)
  rcases hB : processCalls (resetStepState s objs) false bline bsrc calls 0 []
    with ⟨sB, thrB⟩
  rw [hB] at hbrk
  rcases hP : payloadCore (resetStepState s objs).frameState calls 0 with ⟨fsF, thr⟩
  rw [hP] at hupd hbrk
  have hBf : sB.frameState = fsF := by
    simpa using congrArg Prod.fst hbrk
  have hBt : thrB = thr := by
    simpa using congrArg Prod.snd hbrk
  rw [hupd]
  subst hBt
  cases thrB with
  | true =>
    dsimp only
    refine ⟨rfl, Or.inl rfl, ?_, ?_⟩
    · show fsF.watches = sB.watches
      rw [← hBf, frameState_watches]
    · show fsF.localVariables = sB.localVariables
      rw [← hBf, frameState_localVariables]
  | false =>
    dsimp only
    have hw := stopEvents_watches_localVariables sB btype bline berror
    refine ⟨rfl, Or.inr rfl, ?_, ?_⟩
    · show fsF.watches = (stopEvents sB btype bline berror).watches
      rw [hw.1, ← hBf, frameState_watches]
    · show fsF.localVariables = (stopEvents sB btype bline berror).localVariables
      rw [hw.2, ← hBf, frameState_localVariables]

theorem update_preserves_stack_no_stop_witness :
    (handleParsedData ({} : Session) (.update [] [])).stacktraces
        = ({} : Session).stacktraces
    ∧ ((handleParsedData ({} : Session) (.update [] [])).events = ({} : Session).events
       ∨ (handleParsedData ({} : Session) (.update [] [])).events
           = ({} : Session).events ++ [DapEvent.invalidatedEv])
    ∧ (handleParsedData ({} : Session) (.update [] [])).watches
        = (handleParsedData ({} : Session) (.breakDoc "step" 1 "m.nut" none none [] [])).watches
    ∧ (handleParsedData ({} : Session) (.update [] [])).localVariables
        = (handleParsedData ({} : Session)
            (.breakDoc "step" 1 "m.nut" none none [] [])).localVariables :=
  update_preserves_stack_no_stop ({} : Session) [] [] "step" 1 "m.nut" none rfl

theorem onRecieveData_noTerminator (s : Session) (data : String)
    (h : jsEndsWith (s.bufferedData ++ data) "\r\n" = false) :
    onRecieveData s data = ({ s with bufferedData := s.bufferedData ++ data }, []) := by
  rw [onRecieveData]
  dsimp only
  rw [h]
  rfl

theorem onRecieveData_terminator (s : Session) (data : String)
    (h : jsEndsWith (s.bufferedData ++ data) "\r\n" = true) :
    (onRecieveData s data).2
      = (jsSplitCRLF (s.bufferedData ++ data)).filter (fun seg => seg.length > 0)
    ∧ (onRecieveData s data).1.bufferedData = "" := by
  rw [onRecieveData]
  dsimp only
  rw [h]
  exact ⟨rfl, rfl⟩

/-- C7: no frame is decoded while the accumulated receive buffer does not
end with the CRLF terminator — the receive cycle then only grows the
buffer; once the terminator is present the buffer is split on it, each
non-empty segment is handed to the decoder, and the buffer is cleared.
In particular, for input arriving in two chunks that only together end
with CRLF, nothing is decoded after the first chunk and everything after
the second. -/
theorem frame_decoding_gated_by_terminator (s : Session) (data chunk1 chunk2 : String) :
    (jsEndsWith (s.bufferedData ++ data) "\r\n" = false →
      onRecieveData s data = ({ s with bufferedData := s.bufferedData ++ data }, []))
    ∧ (jsEndsWith (s.bufferedData ++ data) "\r\n" = true →
      (onRecieveData s data).2
        = (jsSplitCRLF (s.bufferedData ++ data)).filter (fun seg => seg.length > 0)
      ∧ (onRecieveData s data).1.bufferedData = "")
    ∧ (jsEndsWith (s.bufferedData ++ chunk1) "\r\n" = false →
      jsEndsWith (s.bufferedData ++ chunk1 ++ chunk2) "\r\n" = true →
      (onRecieveData s chunk1).2 = []
      ∧ (onRecieveData (onRecieveData s chunk1).1 chunk2).2
        = (jsSplitCRLF (s.bufferedData ++ chunk1 ++ chunk2)).filter
            (fun seg => seg.length > 0)) := by
  refine ⟨onRecieveData_noTerminator s data, onRecieveData_terminator s data,
    fun h1 h2 => ?_⟩
  have e1 := onRecieveData_noTerminator s chunk1 h1
  refine ⟨by rw [e1], ?_⟩
  rw [e1]
  exact (onRecieveData_terminator
    { s with bufferedData := s.bufferedData ++ chunk1 } chunk2 h2).1

theorem frame_decoding_gated_by_terminator_witness :
    (onRecieveData ({} : Session) "<resumed/>").2 = []
    ∧ (onRecieveData (onRecieveData ({} : Session) "<resumed/>").1 "\r\n").2
        = ["<resumed/>"] := by
  obtain ⟨w1, w2⟩ :=
    (frame_decoding_gated_by_terminator ({} : Session) "" "<resumed/>" "\r\n").2.2
      (by rfl) (by rfl)
  exact ⟨w1, w2.trans (by rfl)⟩

/-- The concrete session used for the resumed-frame pipeline analysis: a
stopped squirrel3 session with one tracked watch that was not validated
this step and one cached file resolution. -/
def resumedSession : Session :=
  { debuggerState := .stopped, scriptVersion := .squirrel3
    watches := [mkWatch 5 "x"]
    resolvedFileReferences := [("m.nut", ⟨"scripts/m.nut", 1⟩)] }

/-- C2 (code bug): when the remote server delivers the resumed
acknowledgement `<resumed/>\r\n`, the receive pipeline splits the buffer
on the terminator before dispatching, while the decoder's resumed branch
compares the segment against the literal including the terminator — so
the branch never fires from the pipeline: the session stays stopped, no
ephemeral state is cleared, no watch is pruned and no continued event
fires.  Calling the decoder directly with the terminator-bearing literal
(which the pipeline never does) produces exactly the behavior the claim
describes. -/
theorem resumed_frame_pipeline_dead_branch :
    ((onRecieveData resumedSession "<resumed/>\r\n").1.debuggerState
        = DebuggerState.stopped
     ∧ (onRecieveData resumedSession "<resumed/>\r\n").1.watches = [mkWatch 5 "x"]
     ∧ (onRecieveData resumedSession "<resumed/>\r\n").1.events = []
     ∧ (onRecieveData resumedSession "<resumed/>\r\n").1.resolvedFileReferences
         = [("m.nut", ⟨"scripts/m.nut", 1⟩)]
     ∧ (onRecieveData resumedSession "<resumed/>\r\n").2 = ["<resumed/>"])
    ∧ ((parseReceivedData resumedSession "<resumed/>\r\n").debuggerState
        = DebuggerState.runnning
     ∧ (parseReceivedData resumedSession "<resumed/>\r\n").watches = []
     ∧ (parseReceivedData resumedSession "<resumed/>\r\n").resolvedFileReferences = []
     ∧ (parseReceivedData resumedSession "<resumed/>\r\n").events = [DapEvent.continuedEv]
     ∧ (parseReceivedData resumedSession "<resumed/>\r\n").sent = [rwCmd 5]) :=
  ⟨⟨rfl, rfl, rfl, rfl, rfl⟩, ⟨rfl, rfl, rfl, rfl, rfl⟩⟩

/-- The session produced by one regular `addWatch` for expression `x` on a
fresh session: the dedup counterexample's starting point. -/
def addWatchDedupSession : Session := (addWatch ({} : Session) 1 "x").1

/-- C3 counterexample: a second regular `addWatch` with the same
expression sends no add-watch wire command at all — the whole session is
unchanged — refuting "every call to addWatch sends the add-watch wire
command". -/
theorem addWatch_dedup_sends_nothing :
    addWatchDedupSession.sent = [awCmd 1 "x"]
    ∧ (addWatch addWatchDedupSession 2 "x").1 = addWatchDedupSession
    ∧ (addWatch addWatchDedupSession 2 "x").1.sent = [awCmd 1 "x"] :=
  ⟨rfl, rfl, rfl⟩

/-- C3 (amended): a regular table-affecting `addWatch` deduplicates by
expression; when no tracked watch has the expression it sends exactly one
add-watch command and registers the new watch, and when one exists it
sends nothing, registers nothing and returns the existing watch. -/
theorem addWatch_regular_dedup_spec (s : Session) (id : Nat) (expr dn : String)
    (vr fid : Nat) (h : id &&& 0x100000 = 0) :
    (s.watches.find? (fun e => e.expression = expr) = none →
      addWatch s id expr dn vr fid true
        = ({ s with
              sent := s.sent ++ [awCmd id expr]
              watches := s.watches ++ [mkWatch id expr]
              watchID := s.watchID + 1 }, mkWatch id expr))
    ∧ (∀ w, s.watches.find? (fun e => e.expression = expr) = some w →
        addWatch s id expr dn vr fid true = (s, w)) := by
  constructor
  · intro hn
    rw [addWatch, if_pos h, hn]
    rfl
  · intro w hw
    rw [addWatch, if_pos h, hw]
    rfl

theorem addWatch_regular_dedup_spec_witness :
    addWatch addWatchDedupSession 2 "x" "" 0 0 true = (addWatchDedupSession, mkWatch 1 "x") :=
  (addWatch_regular_dedup_spec addWatchDedupSession 2 "x" "" 0 0 (by decide)).2
    (mkWatch 1 "x") rfl

/-- Removing the first watch with a present id shortens the list by
exactly one. -/
theorem removeFirstWatchById_length :
    ∀ (ws : List DebuggerWatch) (id : Nat), (ws.find? (fun e => e.id = id)).isSome →
    (removeFirstWatchById ws id).length + 1 = ws.length
  | [], id => by intro h; simp [List.find?] at h
  | w :: ws, id => by
    intro h
    by_cases hw : w.id = id
    · simp [removeFirstWatchById, hw]
    · rw [List.find?_cons_of_neg] at h
      · simpa [removeFirstWatchById, hw] using removeFirstWatchById_length ws id h
      · simp [hw]

/-- C9: removing a watch whose id lacks the reserved bit, with
table-affecting bookkeeping, removes exactly one tracked entry and sends
exactly one remove-watch command; removing an untracked id changes
nothing and sends nothing. -/
theorem removeWatch_regular_spec (s : Session) (id : Nat) (h : id &&& 0x100000 = 0) :
    (∀ w, s.watches.find? (fun e => e.id = id) = some w →
      removeWatch s id true
        = { s with watches := removeFirstWatchById s.watches id
                   sent := s.sent ++ [rwCmd id] }
      ∧ (removeWatch s id true).watches.length + 1 = s.watches.length)
    ∧ (s.watches.find? (fun e => e.id = id) = none → removeWatch s id true = s) := by
  constructor
  · intro w hw
    have he : removeWatch s id true
        = { s with watches := removeFirstWatchById s.watches id
                   sent := s.sent ++ [rwCmd id] } := by
      rw [removeWatch, if_pos h, hw]
      rfl
    refine ⟨he, ?_⟩
    rw [he]
    exact removeFirstWatchById_length s.watches id (by rw [hw]; rfl)
  · intro hn
    rw [removeWatch, if_pos h, hn]
    rfl

/-- The concrete session for the remove-watch witness: one tracked watch
with id 7. -/
def removeWatchSession : Session := { watches := [mkWatch 7 "e"] }

theorem removeWatch_regular_spec_witness :
    removeWatch removeWatchSession 7 true
      = { removeWatchSession with
            watches := removeFirstWatchById removeWatchSession.watches 7
            sent := removeWatchSession.sent ++ [rwCmd 7] }
    ∧ removeWatch removeWatchSession 8 true = removeWatchSession :=
  ⟨((removeWatch_regular_spec removeWatchSession 7 (by decide)).1 (mkWatch 7 "e") rfl).1,
   (removeWatch_regular_spec removeWatchSession 8 (by decide)).2 rfl⟩

/-- The wire commands a full resume sends after the entity-watch removal
commands are accounted for: one fire-and-forget remove per entity watch,
`rd` when recovering from the errored state, then `go`. -/
def resumeCmds (s : Session) : List String :=
  (arrayMapToArray s.entityDataWatches).map (fun w => rwCmd w.id)
    ++ (if s.debuggerState = DebuggerState.errored then ["rd\n"] else []) ++ ["go\n"]

theorem removeWatch_false_step (s : Session) (id : Nat) :
    removeWatch s id false = { s with sent := s.sent ++ [rwCmd id] } := rfl

theorem removeWatch_false_foldl :
    ∀ (ws : List DebuggerWatch) (s : Session),
    ws.foldl (fun s w => removeWatch s w.id false) s
      = { s with sent := s.sent ++ ws.map (fun w => rwCmd w.id) }
  | [], s => by
    simp only [List.foldl_nil, List.map_nil, List.append_nil]
  | w :: rest, s => by
    have h1 : (w :: rest).foldl (fun s w => removeWatch s w.id false) s
        = rest.foldl (fun s w => removeWatch s w.id false)
            { s with sent := s.sent ++ [rwCmd w.id] } := rfl
    rw [h1, removeWatch_false_foldl rest]
    simp [List.append_assoc]

/-- `resumeExecution` in closed form. -/
theorem resumeExecution_eq (s : Session) :
    resumeExecution s
      = { s with
          resolvedFileReferences :=
            if s.rememberFileReferencesDuringSession then s.resolvedFileReferences else []
          entityDataWatches := []
          entityDataWatchID := 1000000
          debuggerState := .ready
          sent := s.sent ++ resumeCmds s } := by
  rw [resumeExecution, resumeCmds]
  rcases hrem : s.rememberFileReferencesDuringSession with _ | _ <;>
    by_cases herr : s.debuggerState = DebuggerState.errored <;>
    · simp only [hrem, Bool.not_false, Bool.not_true, if_true, if_false,
        removeWatch_false_foldl]
      simp [hrem, herr, List.append_assoc]

theorem rwCmd_ne_sr (id : Nat) : rwCmd id ≠ "sr\n" := by
  intro h
  have hd := congrArg String.data h
  rw [rwCmd] at hd
  have h1 : ("rw 0x" ++ hexStr id).data = "rw 0x".data ++ (hexStr id).data :=
    String.data_append _ _
  rw [h1] at hd
  have h2 : "rw 0x".data = ['r', 'w', ' ', '0', 'x'] := rfl
  have h3 : "sr\n".data = ['s', 'r', '\n'] := rfl
  rw [h2, h3] at hd
  simp at hd

theorem sr_not_mem_resumeCmds (s : Session) : "sr\n" ∉ resumeCmds s := by
  intro hmem
  rw [resumeCmds] at hmem
  simp only [List.mem_append, List.mem_map] at hmem
  rcases hmem with (⟨w, _, hw⟩ | hite) | hgo
  · exact rwCmd_ne_sr w.id hw
  · by_cases herr : s.debuggerState = DebuggerState.errored <;> simp [herr] at hite
  · exact absurd hgo (by decide)

/-- C10: stepping out with more than one frame on the stack writes exactly
the step-return command `sr`; with at most one frame no `sr` is written
and the session performs a full resume instead — clearing the entity-data
watches, writing `go` (after the fire-and-forget entity-watch removals
and, from the errored state, `rd`), and moving the session to ready. -/
theorem stepOut_spec (s : Session) :
    (1 < s.stacktraces.length → stepOut s = { s with sent := s.sent ++ ["sr\n"] })
    ∧ (¬ 1 < s.stacktraces.length →
      stepOut s
        = { s with
            resolvedFileReferences :=
              if s.rememberFileReferencesDuringSession then s.resolvedFileReferences else []
            entityDataWatches := []
            entityDataWatchID := 1000000
            debuggerState := .ready
            sent := s.sent ++ resumeCmds s }
      ∧ "sr\n" ∉ resumeCmds s) := by
  constructor
  · intro h
    rw [stepOut, if_pos h]
  · intro h
    rw [stepOut, if_neg h]
    exact ⟨resumeExecution_eq s, sr_not_mem_resumeCmds s⟩

theorem stepOut_spec_witness :
    (stepOut ({} : Session)).debuggerState = DebuggerState.ready := by
  have h := (stepOut_spec ({} : Session)).2 (by decide)
  rw [h.1]

/-- From the spec's words: the (basename, line) wire reference count is
the number of logical (path, line) breakpoints currently tracked whose
path has the given basename and whose line matches.  This is the
specification-side counter the claim quantifies over, for comparison with
the implementation's reference-keyed tuple map. -/
def specWireRefCount (s : Session) (basename : String) (line : Nat) : Nat :=
  (s.breakpoints.map (fun kv =>
    if pathBasename kv.1 = basename then (kv.2.filter (fun bp => bp.line = line)).length
    else 0)).sum

/-- First state of the C1 counterexample: a breakpoint at line 5 of the
workspace file `/game/vscripts/a/f.nut`, which `getRelativeScriptPath`
relativizes to `a/f.nut`. -/
def bpSeq1 : Session := setBreakPointsRequest ({} : Session) "/game/vscripts/a/f.nut" [5]

/-- Second state: a sibling breakpoint at line 5 of
`/game/vscripts/b/f.nut` (relativized `b/f.nut`, same basename). -/
def bpSeq2 : Session := setBreakPointsRequest bpSeq1 "/game/vscripts/b/f.nut" [5]

/-- Third state: the `a/f.nut` breakpoint removed again. -/
def bpSeq3 : Session := setBreakPointsRequest bpSeq2 "/game/vscripts/a/f.nut" []

/-- C1 counterexample: with two paths sharing the basename `f.nut`, the
second add emits an add-breakpoint command although the (basename, line)
reference count moves from one to two, and the subsequent removal emits a
remove-breakpoint command although the count only moves from two to one —
the tuple-keyed refcount map never finds its own entries. -/
theorem breakpoint_refcount_counterexample :
    specWireRefCount bpSeq1 "f.nut" 5 = 1
    ∧ specWireRefCount bpSeq2 "f.nut" 5 = 2
    ∧ bpSeq2.sent = bpSeq1.sent ++ [abCmd "b/f.nut" 5]
    ∧ specWireRefCount bpSeq3 "f.nut" 5 = 1
    ∧ bpSeq3.sent = bpSeq2.sent ++ [rbCmd "a/f.nut" 5] :=
  ⟨rfl, rfl, rfl, rfl, rfl⟩

theorem processBpRemovalStep_sent (bpPath : String) (s : Session) (bp : IBreakpoint) :
    (processBpRemovalStep bpPath s bp).sent = s.sent ++ [rbCmd bpPath bp.line] := rfl

theorem resolveFileReference_noPrompt (s : Session) (filename : String) :
    ∃ r, resolveFileReference s filename false false = (s, r) := by
  rw [resolveFileReference]
  dsimp only
  by_cases h1 : 1 < ((s.fileResolutions.lookup filename).getD []).length
  · rw [if_pos h1, if_neg (show ¬(false = true) by decide)]
    exact ⟨_, rfl⟩
  · rw [if_neg h1]
    by_cases h0 : ((s.fileResolutions.lookup filename).getD []).length = 0
    · rw [if_pos h0, if_neg (show ¬(false = true) by decide)]
      exact ⟨_, rfl⟩
    · rw [if_neg h0]
      exact ⟨_, rfl⟩

theorem bpInclusionNotify_sent (s : Session) (bpPath : String) :
    (bpInclusionNotify s bpPath).sent = s.sent := by
  rw [bpInclusionNotify]
  split
  · rfl
  · obtain ⟨r, hr⟩ := resolveFileReference_noPrompt
      { s with notifiedFileBreakpoints := s.notifiedFileBreakpoints ++ [pathBasename bpPath] }
      (pathBasename bpPath)
    dsimp only
    rw [hr]
    rcases r with p | files | _
    · rfl
    · dsimp only
      split <;> rfl
    · rfl

theorem processBpInclusionStep_sent (bpPath : String) (s : Session) (bp : IBreakpoint) :
    (processBpInclusionStep bpPath s bp).sent = s.sent ++ [abCmd bpPath bp.line] := by
  rw [processBpInclusionStep]
  dsimp only
  rw [bpInclusionNotify_sent]

theorem processBpRemovals_sent (bpPath : String) :
    ∀ (bps : List IBreakpoint) (s : Session),
    (processBpRemovals s bpPath bps).sent
      = s.sent ++ bps.map (fun bp => rbCmd bpPath bp.line)
  | [], s => by simp [processBpRemovals]
  | bp :: rest, s => by
    have h1 : processBpRemovals s bpPath (bp :: rest)
        = processBpRemovals (processBpRemovalStep bpPath s bp) bpPath rest := rfl
    rw [h1, processBpRemovals_sent bpPath rest, processBpRemovalStep_sent]
    simp [List.append_assoc]

theorem processBpInclusions_sent (bpPath : String) :
    ∀ (bps : List IBreakpoint) (s : Session),
    (processBpInclusions s bpPath bps).sent
      = s.sent ++ bps.map (fun bp => abCmd bpPath bp.line)
  | [], s => by simp [processBpInclusions]
  | bp :: rest, s => by
    have h1 : processBpInclusions s bpPath (bp :: rest)
        = processBpInclusions (processBpInclusionStep bpPath s bp) bpPath rest := rfl
    rw [h1, processBpInclusions_sent bpPath rest, processBpInclusionStep_sent]
    simp [List.append_assoc]

/-- The removed-lines diff a set-breakpoints request computes for a path:
the previously tracked breakpoints whose line is no longer requested. -/
def bpDiffRemoved (s : Session) (bpPath : String) (lines : List Nat) : List IBreakpoint :=
  let orig := (s.breakpoints.lookup bpPath).getD []
  let newBps := (mkNewBps orig lines s.breakpointID).1
  orig.filter fun e => !(newBps.any (fun b => b.line = e.line))

/-- The added-lines diff a set-breakpoints request computes for a path:
the freshly built breakpoints whose line was not previously tracked. -/
def bpDiffAdded (s : Session) (bpPath : String) (lines : List Nat) : List IBreakpoint :=
  let orig := (s.breakpoints.lookup bpPath).getD []
  let newBps := (mkNewBps orig lines s.breakpointID).1
  newBps.filter fun e => !(orig.any (fun b => b.line = e.line))

/-- C1 (amended): a set-breakpoints request emits a remove-breakpoint
command for every removed line and an add-breakpoint command for every
added line, in that order, regardless of the (basename, line) reference
count and of the refcount map's contents — its tuple keys are compared by
reference, so lookups and deletions never find earlier entries. -/
theorem setBreakPointsRequest_always_sends (s : Session) (sourcePath : String)
    (lines : List Nat) :
    (setBreakPointsRequest s sourcePath lines).sent
      = s.sent
        ++ (bpDiffRemoved s (replaceBackslashes (getRelativeScriptPath sourcePath)) lines).map
            (fun bp => rbCmd (replaceBackslashes (getRelativeScriptPath sourcePath)) bp.line)
        ++ (bpDiffAdded s (replaceBackslashes (getRelativeScriptPath sourcePath)) lines).map
            (fun bp => abCmd (replaceBackslashes (getRelativeScriptPath sourcePath)) bp.line) := by
  have heq : setBreakPointsRequest s sourcePath lines
      = processBpInclusions
          (processBpRemovals
            { s with
                breakpoints := mapSet s.breakpoints
                  (replaceBackslashes (getRelativeScriptPath sourcePath))
                  (mkNewBps ((s.breakpoints.lookup
                      (replaceBackslashes (getRelativeScriptPath sourcePath))).getD [])
                    lines s.breakpointID).1
                breakpointID := (mkNewBps ((s.breakpoints.lookup
                      (replaceBackslashes (getRelativeScriptPath sourcePath))).getD [])
                    lines s.breakpointID).2 }
            (replaceBackslashes (getRelativeScriptPath sourcePath))
            (bpDiffRemoved s (replaceBackslashes (getRelativeScriptPath sourcePath)) lines))
          (replaceBackslashes (getRelativeScriptPath sourcePath))
          (bpDiffAdded s (replaceBackslashes (getRelativeScriptPath sourcePath)) lines) := rfl
  rw [heq, processBpInclusions_sent, processBpRemovals_sent]

/-- The concrete frame used for the exception pre-check counterexample:
its `error=` marker starts at character 20, before the search offset. -/
def earlyMarkerInput : String := "<break type=\"error\" error=\"x\" line=\"1\" src=\"m.nut\"/>"

/-- A running session with break-on-exception disabled and a cached file
resolution. -/
def earlyMarkerSession : Session :=
  { debuggerState := .runnning, resumeOnExceptions := true
    resolvedFileReferences := [("m.nut", ⟨"scripts/m.nut", 1⟩)] }

/-- C8 counterexample: a frame whose first 120 characters contain the
error-status marker — but starting before character offset 25 — fails the
pre-check and proceeds to the full XML parse, with no resume and with the
cached file-path resolutions retained. -/
theorem exception_precheck_misses_early_marker :
    jsIncludesFrom (earlyMarkerInput.data.take 120) "error=".data 0 = true
    ∧ earlyMarkerSession.resumeOnExceptions = true
    ∧ earlyMarkerSession.debuggerState ≠ DebuggerState.stopped
    ∧ errorPrecheck earlyMarkerInput = false
    ∧ parseReceivedDataPre earlyMarkerSession earlyMarkerInput
        = .fullParse { earlyMarkerSession with
            resumeTimerActive := false, watchesThisStep := [] } :=
  ⟨by decide, rfl, by decide, by decide, rfl⟩

/-- C8 (amended): when break-on-exception is disabled, the session is not
stopped, and the frame's first 120 characters contain the error-status
marker at character offset 25 or later, the decoder never reaches the
full parse: it resumes execution immediately and discards the cached
file-path resolutions. -/
theorem exception_precheck_autoresume (s : Session) (data : String)
    (hres : s.resumeOnExceptions = true)
    (hstate : s.debuggerState ≠ DebuggerState.stopped)
    (hdata : data ≠ "<resumed/>\r\n")
    (hmark : errorPrecheck data = true) :
    parseReceivedDataPre s data
      = .autoResume (resetFileReferences (resumeExecution
          { s with resumeTimerActive := false, watchesThisStep := [] })) := by
  rw [parseReceivedDataPre]
  dsimp only
  rw [if_neg hdata, if_pos ⟨hres, hstate, hmark⟩]

/-- A marker frame whose `error=` attribute starts at character 29. -/
def lateMarkerInput : String := "<break line=\"1\" src=\"mm.nut\" error=\"x\"/>"

/-- A running session with break-on-exception disabled. -/
def lateMarkerSession : Session :=
  { debuggerState := .runnning, resumeOnExceptions := true }

theorem exception_precheck_autoresume_witness :
    parseReceivedDataPre lateMarkerSession lateMarkerInput
      = .autoResume (resetFileReferences (resumeExecution
          { lateMarkerSession with resumeTimerActive := false, watchesThisStep := [] })) :=
  exception_precheck_autoresume lateMarkerSession lateMarkerInput rfl (by decide)
    (by decide) (by decide)

/-- The synthetic self-referencing aggregate: reference 3 whose single
element points back to reference 3. -/
def selfRefObjs : List RefObj := [⟨3, none, [⟨"t", "3", "self", "t"⟩]⟩]

/-- C4: building the reference tree for the self-referencing aggregate
terminates with exactly one node labelled with its reference id (the
self-edge is cut by the visited set); and in general a reference id
already present in the visited set is never expanded into a node — the
call returns without touching the visited list. -/
theorem buildReferenceTree_selfref :
    ((buildReferenceTree selfRefObjs 3 "x" "t" 0 []).out
        = .ok (some (.node ⟨3, "x", "t"⟩ [] 0))
      ∧ (buildReferenceTree selfRefObjs 3 "x" "t" 0 []).visited = [3]
      ∧ countNodesWithRef 3 (.node ⟨3, "x", "t"⟩ [] 0) = 1)
    ∧ (∀ (fuel : Nat) (refs : List RefObj) (r : Nat) (name ty : String) (d : Nat)
        (visited : List Nat), r ∈ visited →
        buildRefTreeGo (fuel + 1) refs r name ty d visited = some ⟨visited, .error ()⟩
        ∨ buildRefTreeGo (fuel + 1) refs r name ty d visited = some ⟨visited, .ok none⟩) := by
  constructor
  · refine ⟨rfl, rfl, ?_⟩
    simp [countNodesWithRef, countNodesListWithRef]
  · intro fuel refs r name ty d visited hv
    rw [buildRefTreeGo]
    cases hf : refs.find? (fun o => o.ref = r) with
    | none => exact Or.inl rfl
    | some obj =>
      dsimp only
      cases he : obj.elements.isEmpty with
      | true => exact Or.inr rfl
      | false =>
        refine Or.inr ?_
        rw [if_neg (show ¬(false = true) by decide), if_pos hv]

theorem buildReferenceTree_selfref_witness :
    buildRefTreeGo 1 selfRefObjs 3 "cycle" "t" 0 [3] = some ⟨[3], .error ()⟩
    ∨ buildRefTreeGo 1 selfRefObjs 3 "cycle" "t" 0 [3] = some ⟨[3], .ok none⟩ :=
  buildReferenceTree_selfref.2 0 selfRefObjs 3 "cycle" "t" 0 [3] (by decide)

/-- A ten-element integer array under reference id 1, for the preview
bound. -/
def arrayPreviewRefs : List RefObj :=
  [⟨1, none, (List.range 10).map (fun i => ⟨"i", toString i, "", ""⟩)⟩]

/-- C5: with the max-preview-items configuration at 4, the short
representation of a 10-element array renders exactly 4 entries followed
by the ellipsis marker; and a nested aggregate element is rendered as the
fixed placeholder of its type tag (never expanded into its contents). -/
theorem preview_bound_and_placeholders :
    getStructShortRepresentation arrayPreviewRefs 4 1 "a"
      = .ok "Array (10) [0, 1, 2, 3, ...]"
    ∧ (∀ (refs : List RefObj) (e : XmlElem), e.vt = "a" →
        renderValuePart refs e = "Array [...]")
    ∧ (∀ (refs : List RefObj) (e : XmlElem), e.vt = "t" →
        renderValuePart refs e = "Table {...}") := by
  refine ⟨rfl, ?_, ?_⟩
  · intro refs e h
    rcases e with ⟨vt, v, kv, kt⟩
    subst h
    rfl
  · intro refs e h
    rcases e with ⟨vt, v, kv, kt⟩
    subst h
    rfl

theorem preview_bound_and_placeholders_witness :
    renderValuePart [] ⟨"a", "7", "k", "s"⟩ = "Array [...]"
    ∧ renderValuePart [] ⟨"t", "7", "k", "s"⟩ = "Table {...}" :=
  ⟨preview_bound_and_placeholders.2.1 [] ⟨"a", "7", "k", "s"⟩ rfl,
   preview_bound_and_placeholders.2.2 [] ⟨"t", "7", "k", "s"⟩ rfl⟩

end VScript
